import Mathlib

/-!
Verification of the MALS (multi-agent-living-system) core against its
natural-language specification.

The development shallowly embeds the core of the repository:
  * `mals/core/models.py`    — the blackboard data model,
  * `mals/core/blackboard.py` — the blackboard API and in-memory backend,
  * `mals/memory/manager.py`  — dashboard projection, context slicing,
                                hot/warm compression,
  * `mals/core/conductor.py`  — the sense-think-act scheduler loop.

Python dictionaries are modelled as insertion-ordered association lists,
JSON-like workspace values as an inductive `JValue`, machine timestamps
(`time.time()`) as abstract naturals threaded through the mutating
operations, and the external LLM calls as opaque function parameters.
-/

namespace MALS

/-- JSON-like values, the type of workspace entries (`dict[str, Any]` in
`models.py`, restricted to JSON-serializable data as required by the
pydantic round trip). Numbers are modelled as integers. -/
inductive JValue where
  | null : JValue
  | bool (b : Bool) : JValue
  | num (n : Int) : JValue
  | str (s : String) : JValue
  | arr (xs : List JValue) : JValue
  | obj (fields : List (String × JValue)) : JValue

/-- Python `d[k]` lookup on an insertion-ordered dictionary. -/
def dictGet {α : Type} (m : List (String × α)) (k : String) : Option α :=
  match m with
  | [] => none
  | (k', v) :: rest => if k' = k then some v else dictGet rest k

/-- Python `d[k] = v`: overwrite in place if the key exists, else append. -/
def dictSet {α : Type} (m : List (String × α)) (k : String) (v : α) :
    List (String × α) :=
  match m with
  | [] => [(k, v)]
  | (k', v') :: rest =>
    if k' = k then (k', v) :: rest else (k', v') :: dictSet rest k v

/-- Python `k in d`. -/
def dictContains {α : Type} (m : List (String × α)) (k : String) : Bool :=
  (dictGet m k).isSome

/-- Python `d.pop(k, None)`: drop the entry for `k` if present. -/
def dictPop {α : Type} (m : List (String × α)) (k : String) :
    List (String × α) :=
  match m with
  | [] => []
  | (k', v') :: rest =>
    if k' = k then rest else (k', v') :: dictPop rest k

/-- Python `list.remove(x)` guarded by `if x in list`: remove the first
occurrence, no-op when absent. -/
def listRemove (xs : List String) (x : String) : List String :=
  match xs with
  | [] => []
  | y :: rest => if y = x then rest else y :: listRemove rest x

/-- Update the element at position `i` (used to model closing the single
open invocation record held by the caller in `log_invocation_end`). -/
def listModify {α : Type} (xs : List α) (i : Nat) (f : α → α) : List α :=
  match xs, i with
  | [], _ => []
  | x :: rest, 0 => f x :: rest
  | x :: rest, Nat.succ j => x :: listModify rest j f

/-- Python slicing `s[:n]` on strings (by code points). -/
def pyTake (s : String) (n : Nat) : String :=
  String.mk (s.data.take n)

-- ---------------------------------------------------------------------
-- Enums (`models.py`)
-- ---------------------------------------------------------------------

/-- `GlobalStatus` — lifecycle states of a MALS task. -/
inductive GlobalStatus where
  | PLANNING | EXECUTING | REFINING | VERIFYING
  | WAITING_USER | COMPLETED | FAILED
deriving DecidableEq, Repr

/-- The `.value` string of a `GlobalStatus` member. -/
def GlobalStatus.value : GlobalStatus → String
  | .PLANNING => "PLANNING"
  | .EXECUTING => "EXECUTING"
  | .REFINING => "REFINING"
  | .VERIFYING => "VERIFYING"
  | .WAITING_USER => "WAITING_USER"
  | .COMPLETED => "COMPLETED"
  | .FAILED => "FAILED"

/-- The terminal statuses checked by the conductor loop
(`status in (COMPLETED, FAILED)`). -/
def GlobalStatus.isTerminal : GlobalStatus → Bool
  | .COMPLETED => true
  | .FAILED => true
  | _ => false

/-- `HypothesisStatus`. -/
inductive HypothesisStatus where
  | proposed | validated | rejected
deriving DecidableEq, Repr

def HypothesisStatus.value : HypothesisStatus → String
  | .proposed => "proposed"
  | .validated => "validated"
  | .rejected => "rejected"

/-- `ConsensusStatus`. -/
inductive ConsensusStatus where
  | pending_review | in_review | approved | rejected
deriving DecidableEq, Repr

def ConsensusStatus.value : ConsensusStatus → String
  | .pending_review => "pending_review"
  | .in_review => "in_review"
  | .approved => "approved"
  | .rejected => "rejected"

-- ---------------------------------------------------------------------
-- Sub-models (`models.py`)
-- ---------------------------------------------------------------------

/-- `StatusChange` — one status transition record. -/
structure StatusChange where
  from_status : String
  to_status : String
  reason : String
  timestamp : Nat
deriving DecidableEq, Repr

/-- `Hypothesis`. The uuid-generated `id` is supplied by the caller in
this model (uuid generation is an external effect). -/
structure Hypothesis where
  id : String
  content : String
  author_agent : String
  status : HypothesisStatus := HypothesisStatus.proposed
  evidence : List String := []
  timestamp : Nat := 0
deriving DecidableEq, Repr

/-- `ReviewRecord` — one review entry within a consensus cycle. -/
structure ReviewRecord where
  reviewer_agent : String
  verdict : ConsensusStatus
  critique : String
  timestamp : Nat
deriving DecidableEq, Repr

/-- `ConsensusState`. -/
structure ConsensusState where
  target_field : String
  status : ConsensusStatus := ConsensusStatus.pending_review
  review_history : List ReviewRecord := []
  max_iterations : Nat := 3
  current_iteration : Nat := 0
deriving DecidableEq, Repr

/-- `MemoryTier` — hot / warm / cold tiers. -/
structure MemoryTier where
  hot : List String := []
  warm : List (String × String) := []
  cold_ref : String := ""
deriving DecidableEq, Repr

/-- `AgentInvocationRecord`. -/
structure AgentInvocationRecord where
  agent_name : String
  started_at : Nat := 0
  finished_at : Option Nat := none
  input_tokens : Nat := 0
  output_tokens : Nat := 0
  status : String := "running"
  error : Option String := none
deriving DecidableEq, Repr

/-- `BlackboardState` — the complete state of the Dynamic Blackboard. -/
structure BlackboardState where
  task_id : String
  objective : String := ""
  created_at : Nat := 0
  updated_at : Nat := 0
  global_status : GlobalStatus := GlobalStatus.PLANNING
  status_history : List StatusChange := []
  active_constraints : List String := []
  workspace : List (String × JValue) := []
  hypothesis_thread : List Hypothesis := []
  consensus : Option ConsensusState := none
  memory : MemoryTier := {}
  invocation_log : List AgentInvocationRecord := []
  conductor_notes : String := ""

/-- `BlackboardState.touch` — bump `updated_at`. -/
def BlackboardState.touch (s : BlackboardState) (now : Nat) : BlackboardState :=
  { s with updated_at := now }

-- ---------------------------------------------------------------------
-- Blackboard API (`blackboard.py`).  Each mutating method calls
-- `_persist`, which touches `updated_at` and saves to the backend; the
-- state-level model applies `touch` and the backend is modelled
-- separately (`backendSave` below).  The `now` argument stands for the
-- `time.time()` values observed during the call.
-- ---------------------------------------------------------------------

/-- `Blackboard.initialize` — fresh state for a task.  The uuid-generated
`task_id` is supplied by the caller (uuid generation is external). -/
def initBoard (taskId : String) (objective : String)
    (constraints : List String) (now : Nat) : BlackboardState :=
  { task_id := taskId
    objective := objective
    created_at := now
    updated_at := now
    global_status := GlobalStatus.PLANNING
    active_constraints := constraints }

/-- `Blackboard.set_status` — append a `StatusChange` recording the old
and new status, then switch `global_status`. -/
def set_status (s : BlackboardState) (newStatus : GlobalStatus)
    (reason : String) (now : Nat) : BlackboardState :=
  (({ s with
      status_history := s.status_history ++
        [{ from_status := s.global_status.value
           to_status := newStatus.value
           reason := reason
           timestamp := now }]
      global_status := newStatus } : BlackboardState)).touch now

/-- `Blackboard.read_workspace` — `workspace.get(field)`. -/
def read_workspace (s : BlackboardState) (field : String) : Option JValue :=
  dictGet s.workspace field

/-- `Blackboard.write_workspace` — set the field and mark it hot (the
hot list keeps insertion order and is only extended when absent). -/
def write_workspace (s : BlackboardState) (field : String) (value : JValue)
    (now : Nat) : BlackboardState :=
  let hot := if s.memory.hot.contains field then s.memory.hot
             else s.memory.hot ++ [field]
  (({ s with
      workspace := dictSet s.workspace field value
      memory := { s.memory with hot := hot } } : BlackboardState)).touch now

/-- `Blackboard.delete_workspace`. -/
def delete_workspace (s : BlackboardState) (field : String) (now : Nat) :
    BlackboardState :=
  (({ s with
      workspace := dictPop s.workspace field
      memory := { s.memory with hot := listRemove s.memory.hot field } } : BlackboardState)).touch now

/-- `Blackboard.propose_hypothesis`; the generated uuid `id` is an
argument. -/
def propose_hypothesis (s : BlackboardState) (hid content author : String)
    (now : Nat) : BlackboardState :=
  (({ s with
      hypothesis_thread := s.hypothesis_thread ++
        [{ id := hid, content := content, author_agent := author,
           timestamp := now }] } : BlackboardState)).touch now

/-- The in-place update loop of `Blackboard.resolve_hypothesis`: update
the first hypothesis whose id matches, or report that none does. -/
def resolveThread (thread : List Hypothesis) (hid : String)
    (status : HypothesisStatus) (evidence : String) :
    Option (List Hypothesis) :=
  match thread with
  | [] => none
  | h :: rest =>
    if h.id = hid then
      some ({ h with
                status := status
                evidence := if evidence ≠ "" then h.evidence ++ [evidence]
                            else h.evidence } :: rest)
    else
      (resolveThread rest hid status evidence).map (h :: ·)

/-- `Blackboard.resolve_hypothesis` — raises
`ValueError("Hypothesis '<id>' not found.")` when no hypothesis has the
given id; on that path nothing has been mutated. -/
def resolve_hypothesis (s : BlackboardState) (hid : String)
    (status : HypothesisStatus) (evidence : String) (now : Nat) :
    Except String BlackboardState :=
  match resolveThread s.hypothesis_thread hid status evidence with
  | some t => .ok ((({ s with hypothesis_thread := t } : BlackboardState)).touch now)
  | none => .error ("Hypothesis \x27" ++ hid ++ "\x27 not found.")

/-- `Blackboard.start_consensus` — install a fresh cycle
(status `pending_review`, empty history, iteration 0), silently
replacing any active one. -/
def start_consensus (s : BlackboardState) (targetField : String)
    (maxIterations : Nat) (now : Nat) : BlackboardState :=
  (({ s with
      consensus := some { target_field := targetField
                          max_iterations := maxIterations } } : BlackboardState)).touch now

/-- `Blackboard.submit_review` — raises when no consensus is active;
otherwise appends a review record, increments `current_iteration`, and
sets the cycle status: APPROVED verdict approves, a REJECTED verdict at
`current_iteration >= max_iterations` force-approves, anything else
rejects. -/
def submit_review (s : BlackboardState) (reviewer : String)
    (verdict : ConsensusStatus) (critique : String) (now : Nat) :
    Except String BlackboardState :=
  match s.consensus with
  | none => .error "No active consensus cycle."
  | some c =>
    let record : ReviewRecord :=
      { reviewer_agent := reviewer, verdict := verdict,
        critique := critique, timestamp := now }
    let c := { c with
                review_history := c.review_history ++ [record]
                current_iteration := c.current_iteration + 1 }
    let c :=
      if verdict = ConsensusStatus.approved then
        { c with status := ConsensusStatus.approved }
      else if c.current_iteration ≥ c.max_iterations then
        { c with status := ConsensusStatus.approved }
      else
        { c with status := ConsensusStatus.rejected }
    .ok ((({ s with consensus := some c } : BlackboardState)).touch now)

/-- `Blackboard.clear_consensus`. -/
def clear_consensus (s : BlackboardState) (now : Nat) : BlackboardState :=
  (({ s with consensus := none } : BlackboardState)).touch now

/-- `Blackboard.log_invocation_start` — append a fresh record with
status "running". -/
def log_invocation_start (s : BlackboardState) (agentName : String)
    (now : Nat) : BlackboardState :=
  (({ s with
      invocation_log := s.invocation_log ++
        [{ agent_name := agentName, started_at := now }] } : BlackboardState)).touch now

/-- `Blackboard.log_invocation_end` — close the record the caller holds
(identified here by its position in the log, which is where
`log_invocation_start` appended it). -/
def log_invocation_end (s : BlackboardState) (idx : Nat) (status : String)
    (inputTokens outputTokens : Nat) (error : Option String) (now : Nat) :
    BlackboardState :=
  (({ s with
      invocation_log := listModify s.invocation_log idx fun r =>
        { r with
            finished_at := some now
            status := status
            input_tokens := inputTokens
            output_tokens := outputTokens
            error := error } } : BlackboardState)).touch now

/-- `Blackboard.set_conductor_notes`. -/
def set_conductor_notes (s : BlackboardState) (notes : String) (now : Nat) :
    BlackboardState :=
  (({ s with conductor_notes := notes } : BlackboardState)).touch now

-- ---------------------------------------------------------------------
-- Rendering helpers used by the memory manager.
-- ---------------------------------------------------------------------

/-- Minimal JSON string escaping (backslash, quote, and the common
control characters; enough for `json.dumps(..., ensure_ascii=False)` on
the data this system produces). -/
def jsonEscapeChar (c : Char) : String :=
  if c = '\\' then "\\\\"
  else if c = '\"' then "\\\""
  else if c = '\n' then "\\n"
  else if c = '\t' then "\\t"
  else if c = '\r' then "\\r"
  else String.mk [c]

def jsonEscape (s : String) : String :=
  String.join (s.data.map jsonEscapeChar)

mutual
/-- `json.dumps(value, ensure_ascii=False)` with the default
separators `", "` and `": "`. -/
def jsonDumps : JValue → String
  | .null => "null"
  | .bool true => "true"
  | .bool false => "false"
  | .num n => toString n
  | .str s => "\"" ++ jsonEscape s ++ "\""
  | .arr xs => "[" ++ jsonDumpsList xs ++ "]"
  | .obj kvs => "\x7b" ++ jsonDumpsPairs kvs ++ "\x7d"

def jsonDumpsList : List JValue → String
  | [] => ""
  | [x] => jsonDumps x
  | x :: y :: rest => jsonDumps x ++ ", " ++ jsonDumpsList (y :: rest)

def jsonDumpsPairs : List (String × JValue) → String
  | [] => ""
  | [(k, v)] => "\"" ++ jsonEscape k ++ "\": " ++ jsonDumps v
  | (k, v) :: p :: rest =>
    "\"" ++ jsonEscape k ++ "\": " ++ jsonDumps v ++ ", " ++
      jsonDumpsPairs (p :: rest)
end

mutual
/-- Python `repr` on JSON-shaped data (simplified: strings are wrapped
in single quotes without re-escaping; only reached for values that are
neither strings nor dicts at top level). -/
def pyRepr : JValue → String
  | .null => "None"
  | .bool true => "True"
  | .bool false => "False"
  | .num n => toString n
  | .str s => "\x27" ++ s ++ "\x27"
  | .arr xs => "[" ++ pyReprList xs ++ "]"
  | .obj kvs => "\x7b" ++ pyReprPairs kvs ++ "\x7d"

def pyReprList : List JValue → String
  | [] => ""
  | [x] => pyRepr x
  | x :: y :: rest => pyRepr x ++ ", " ++ pyReprList (y :: rest)

def pyReprPairs : List (String × JValue) → String
  | [] => ""
  | [(k, v)] => "\x27" ++ k ++ "\x27: " ++ pyRepr v
  | (k, v) :: p :: rest =>
    "\x27" ++ k ++ "\x27: " ++ pyRepr v ++ ", " ++ pyReprPairs (p :: rest)
end

/-- Python `str(value)` on JSON-shaped data: a string prints itself,
everything else prints as its `repr`. -/
def pyStr : JValue → String
  | .str s => s
  | v => pyRepr v

-- ---------------------------------------------------------------------
-- Memory manager (`memory/manager.py`).
-- ---------------------------------------------------------------------

/-- One workspace line of `MemoryManager.generate_dashboard`: the warm
summary when the field has one, a 150-character prefix with a length
annotation for strings longer than 200 characters, truncated
`json.dumps` for dicts, and plain `str()` otherwise. -/
def wsLine (warm : List (String × String)) (kv : String × JValue) : String :=
  match dictGet warm kv.1 with
  | some summary => "  " ++ kv.1 ++ ": [completed] " ++ summary
  | none =>
    match kv.2 with
    | JValue.str v =>
      if v.length > 200 then
        "  " ++ kv.1 ++ ": " ++ pyTake v 150 ++ "... (" ++
          toString v.length ++ " chars)"
      else
        "  " ++ kv.1 ++ ": " ++ v
    | JValue.obj fields =>
      "  " ++ kv.1 ++ ": " ++ pyTake (jsonDumps (JValue.obj fields)) 150
    | v => "  " ++ kv.1 ++ ": " ++ pyStr v

/-- The lines of `MemoryManager.generate_dashboard`, in order:
objective, status, workspace section, consensus section, up to the 3
most recent proposed hypotheses, constraints, conductor notes. -/
def dashboardLines (s : BlackboardState) : List String :=
  let base := ["Objective: " ++ s.objective,
               "Status: " ++ s.global_status.value]
  let ws :=
    if s.workspace.isEmpty then []
    else "Workspace:" :: s.workspace.map (wsLine s.memory.warm)
  let cons :=
    match s.consensus with
    | none => []
    | some c =>
      let head := "Consensus: target=" ++ c.target_field ++ ", status=" ++
        c.status.value ++ ", iteration=" ++ toString c.current_iteration ++
        "/" ++ toString c.max_iterations
      match c.review_history.getLast? with
      | none => [head]
      | some r =>
        [head, "  Last review by " ++ r.reviewer_agent ++ ": " ++
          pyTake r.critique 100]
  let proposed := s.hypothesis_thread.filter
    (fun h => h.status.value = "proposed")
  let hyps :=
    if proposed.isEmpty then []
    else
      ("Open hypotheses (" ++ toString proposed.length ++ "):") ::
        (proposed.drop (proposed.length - 3)).map
          (fun h => "  [" ++ h.id ++ "] by " ++ h.author_agent ++ ": " ++
            pyTake h.content 80)
  let constr :=
    if s.active_constraints.isEmpty then []
    else ["Constraints: " ++ String.intercalate ", " s.active_constraints]
  let notes :=
    if s.conductor_notes = "" then []
    else ["Notes: " ++ s.conductor_notes]
  base ++ ws ++ cons ++ hyps ++ constr ++ notes

/-- `MemoryManager.generate_dashboard` — the joined dashboard text. -/
def generate_dashboard (s : BlackboardState) : String :=
  String.intercalate "\n" (dashboardLines s)

/-- A hypothesis entry of a context slice. -/
structure HypothesisView where
  id : String
  content : String
  status : String
  author : String
deriving DecidableEq, Repr

/-- The consensus entry of a context slice. -/
structure ConsensusView where
  target_field : String
  status : String
  iteration : Nat
  last_critique : Option String
deriving DecidableEq, Repr

/-- The dictionary returned by `MemoryManager.slice_context`. -/
structure ContextSlice where
  objective : String
  global_status : String
  workspace : List (String × JValue)
  hypotheses : Option (List HypothesisView)
  consensus : Option ConsensusView

/-- The field loop of `slice_context`: a requested field present in the
workspace is copied under its own name; one present only in warm memory
contributes `<field>_summary`; anything else is skipped. -/
def sliceWorkspaceLoop (ws : List (String × JValue))
    (warm : List (String × String)) :
    List String → List (String × JValue) → List (String × JValue)
  | [], acc => acc
  | f :: rest, acc =>
    let acc' :=
      match dictGet ws f with
      | some v => dictSet acc f v
      | none =>
        match dictGet warm f with
        | some su => dictSet acc (f ++ "_summary") (JValue.str su)
        | none => acc
    sliceWorkspaceLoop ws warm rest acc'

/-- `MemoryManager.slice_context`. -/
def slice_context (s : BlackboardState) (relevantFields : List String)
    (includeHypotheses includeConsensus : Bool) : ContextSlice :=
  { objective := s.objective
    global_status := s.global_status.value
    workspace := sliceWorkspaceLoop s.workspace s.memory.warm relevantFields []
    hypotheses :=
      if includeHypotheses then
        some ((s.hypothesis_thread.filter
                (fun h => h.status.value = "proposed")).map
          fun h => { id := h.id, content := h.content,
                     status := h.status.value, author := h.author_agent })
      else none
    consensus :=
      if includeConsensus then
        match s.consensus with
        | some c =>
          some { target_field := c.target_field
                 status := c.status.value
                 iteration := c.current_iteration
                 last_critique := (c.review_history.getLast?).map
                   (fun r => r.critique) }
        | none => none
      else none }

/-- Number of occurrences of a name in a list (used to state that the
hot list holds a field at most once). -/
def countOcc (xs : List String) (x : String) : Nat :=
  (xs.filter (fun y => y = x)).length

/-- The workspace-slice entry contributed by one requested field: its
own name and live value when the field is in the workspace, the
`_summary` key with the warm summary when it is only in warm memory,
nothing otherwise. -/
def contribKey (ws : List (String × JValue)) (warm : List (String × String))
    (f : String) : Option (String × JValue) :=
  match dictGet ws f with
  | some v => some (f, v)
  | none =>
    match dictGet warm f with
    | some su => some (f ++ "_summary", JValue.str su)
    | none => none

/-- The truncation fallback summary of `compress_to_warm`:
`content_str[:200] + ("..." if len(content_str) > 200 else "")`. -/
def truncFallback (cs : String) : String :=
  pyTake cs 200 ++ (if cs.length > 200 then "..." else "")

/-- The summary computed by `compress_to_warm` for a present field: the
LLM summary (of the first 3000 characters) when a client is available
and the content exceeds 500 characters, else the truncation fallback.
The serialized form of non-string content is its `json.dumps`. -/
def summaryOf (llm : Option (String → String)) (content : JValue) : String :=
  let contentStr :=
    match content with
    | JValue.str str => str
    | v => jsonDumps v
  match llm with
  | some complete =>
    if contentStr.length > 500 then complete (pyTake contentStr 3000)
    else truncFallback contentStr
  | none => truncFallback contentStr

/-- `MemoryManager.compress_to_warm`.  The optional LLM summarizer
(`self._llm.complete`, an external collaborator) is modelled as an
opaque function receiving the first 3000 characters of the content;
without one, or for content of at most 500 characters, the truncation
fallback is used.  Returns the new state and the summary. -/
def compress_to_warm (llm : Option (String → String)) (s : BlackboardState)
    (fieldName : String) (now : Nat) : BlackboardState × String :=
  match dictGet s.workspace fieldName with
  | none => (s, "")
  | some content =>
    let summary := summaryOf llm content
    let mem := { s.memory with
                  warm := dictSet s.memory.warm fieldName summary
                  hot := if s.memory.hot.contains fieldName then
                           listRemove s.memory.hot fieldName
                         else s.memory.hot }
    ((({ s with memory := mem } : BlackboardState)).touch now, summary)

/-- `MemoryManager.mark_hot`. -/
def mark_hot (s : BlackboardState) (fieldName : String) (now : Nat) :
    BlackboardState :=
  if s.memory.hot.contains fieldName then s
  else
    (({ s with
        memory := { s.memory with
                     hot := s.memory.hot ++ [fieldName] } } :
      BlackboardState)).touch now

-- ---------------------------------------------------------------------
-- Conductor (`core/conductor.py`).
-- ---------------------------------------------------------------------

/-- The `action` string of a `ConductorDecision`; strings outside the
known set are kept (`other`) and hit the "Unknown action" no-op arm. -/
inductive CAction where
  | invoke_agent
  | update_status
  | complete
  | fail
  | other (s : String)
deriving DecidableEq, Repr

/-- `ConductorDecision` — the structured output of the THINK step. -/
structure ConductorDecision where
  action : CAction
  agent_name : Option String := none
  relevant_fields : List String := []
  include_consensus : Bool := false
  status_update : Option GlobalStatus := none
  reason : String := ""

/-- Python truthiness of `decision.agent_name` (`None` and `""` are
falsy). -/
def agentNameTruthy : Option String → Bool
  | none => false
  | some s => s ≠ ""

/-- The result of a capability `execute` call.  `ok := false` models a
raised exception; `state` is the blackboard state after whatever
mutations the agent performed (agents receive the live board handle). -/
structure AgentResult where
  ok : Bool
  state : BlackboardState
  input_tokens : Nat := 0
  output_tokens : Nat := 0
  error : String := ""

/-- An agent capability: context slice and board state in, result out. -/
def AgentCap : Type := ContextSlice → BlackboardState → AgentResult

/-- `AgentRegistry.get` — lookup returns absent rather than erroring. -/
def Registry : Type := String → Option AgentCap

/-- The consensus-outcome classification of `Conductor._invoke_agent`:
`approved_first_try` for exactly one iteration, else
`approved_after_revision` below `max_iterations`, else
`force_approved`. -/
def classifyOutcome (iterations maxIterations : Nat) : String :=
  if iterations = 1 then "approved_first_try"
  else if iterations < maxIterations then "approved_after_revision"
  else "force_approved"

/-- The consensus-completion check at the end of a successful
`Conductor._invoke_agent`: when an active cycle has reached APPROVED,
classify the outcome, report it, and clear the consensus; otherwise
leave the state alone. -/
def consensusCheck (s3 : BlackboardState) (now : Nat) :
    BlackboardState × Option (String × Nat) :=
  match s3.consensus with
  | some c =>
    if c.status = ConsensusStatus.approved then
      (clear_consensus s3 now,
       some (classifyOutcome c.current_iteration c.max_iterations,
             c.current_iteration))
    else (s3, none)
  | none => (s3, none)

/-- `Conductor._invoke_agent`.  Returns the new board state together
with the consensus-cycle event (outcome label and iteration count)
reported to metrics/recorder when an APPROVED cycle is observed and
cleared.  Absent agent name or unknown agent: record an error and
no-op.  Status moves PLANNING → EXECUTING before the first call; on
success the invocation record is closed with the reported token counts,
on exception with status "error". -/
def invokeAgent (reg : Registry) (d : ConductorDecision)
    (s : BlackboardState) (now : Nat) :
    BlackboardState × Option (String × Nat) :=
  if agentNameTruthy d.agent_name then
    let name := d.agent_name.getD ""
    match reg name with
    | none => (s, none)
    | some agent =>
      let context := slice_context s d.relevant_fields true d.include_consensus
      let idx := s.invocation_log.length
      let s₁ := log_invocation_start s name now
      let s₂ :=
        if s₁.global_status = GlobalStatus.PLANNING then
          set_status s₁ GlobalStatus.EXECUTING
            ("First agent invoked: " ++ name) now
        else s₁
      let r := agent context s₂
      if r.ok then
        consensusCheck (log_invocation_end r.state idx "completed"
          r.input_tokens r.output_tokens none now) now
      else
        (log_invocation_end r.state idx "error" 0 0 (some r.error) now, none)
  else (s, none)

/-- The conductor-internal repetition tracker (`_last_agent`,
`_repeat_count`). -/
structure ConductorTrack where
  last_agent : Option String := none
  repeat_count : Nat := 0
deriving DecidableEq, Repr

/-- The result of one `Conductor._act` step: updated tracker, updated
board state, the consensus event from `_invoke_agent` (if any), and
whether the repetition override fired on this step. -/
structure ActResult where
  track : ConductorTrack
  state : BlackboardState
  consensusEvent : Option (String × Nat)
  forced : Bool

/-- `Conductor._act`.  Repeat tracking runs first: a truthy
`invoke_agent` decision bumps (or resets to 1) the consecutive-repeat
counter, and at count ≥ 3 the decision is overridden — status is forced
to COMPLETED with a loop-detected reason and the agent is not invoked.
Any other decision resets the tracker.  Then the action dispatch:
`invoke_agent`, `update_status` (only with a status), `complete`,
`fail`, and a no-op arm for unknown actions. -/
def condAct (reg : Registry) (d : ConductorDecision) (t : ConductorTrack)
    (s : BlackboardState) (now : Nat) : ActResult :=
  if d.action = CAction.invoke_agent ∧ agentNameTruthy d.agent_name then
    let name := d.agent_name.getD ""
    let rep := if d.agent_name = t.last_agent then t.repeat_count + 1 else 1
    let t' : ConductorTrack :=
      { last_agent := d.agent_name, repeat_count := rep }
    if rep ≥ 3 then
      { track := t'
        state := set_status s GlobalStatus.COMPLETED
          ("Auto-completed: agent \x27" ++ name ++ "\x27 loop detected") now
        consensusEvent := none
        forced := true }
    else
      let (s', ev) := invokeAgent reg d s now
      { track := t', state := s', consensusEvent := ev, forced := false }
  else
    let t' : ConductorTrack := { last_agent := none, repeat_count := 0 }
    match d.action with
    | CAction.invoke_agent =>
      -- falsy agent_name: `_invoke_agent` logs an error and no-ops
      let (s', ev) := invokeAgent reg d s now
      { track := t', state := s', consensusEvent := ev, forced := false }
    | CAction.update_status =>
      match d.status_update with
      | some st =>
        { track := t', state := set_status s st d.reason now,
          consensusEvent := none, forced := false }
      | none =>
        { track := t', state := s, consensusEvent := none, forced := false }
    | CAction.complete =>
      { track := t',
        state := set_status s GlobalStatus.COMPLETED d.reason now,
        consensusEvent := none, forced := false }
    | CAction.fail =>
      { track := t',
        state := set_status s GlobalStatus.FAILED d.reason now,
        consensusEvent := none, forced := false }
    | CAction.other _ =>
      { track := t', state := s, consensusEvent := none, forced := false }

/-- The accumulated outcome of the `while` loop in `Conductor.run`:
final step count, tracker, board state, and the list of step numbers at
which the repetition override fired (the observable trace of the
"loop detected" warnings). -/
structure LoopResult where
  stepCount : Nat
  track : ConductorTrack
  state : BlackboardState
  forcedSteps : List Nat

/-- The `while self._step_count < self._max_steps` loop of
`Conductor.run`, by recursion on the remaining step budget.  Each
iteration increments the step counter, stops on a terminal status,
otherwise runs SENSE/THINK (the external decision function, here an
arbitrary function of the step number and the state) and ACT.  `clock`
supplies the `time.time()` values of step `n`. -/
def runLoop (reg : Registry)
    (decide : Nat → BlackboardState → ConductorDecision)
    (clock : Nat → Nat) :
    Nat → Nat → ConductorTrack → BlackboardState → List Nat → LoopResult
  | 0, n, t, s, forcedAcc =>
    { stepCount := n, track := t, state := s, forcedSteps := forcedAcc }
  | Nat.succ fuel, n, t, s, forcedAcc =>
    let n' := n + 1
    if s.global_status.isTerminal then
      { stepCount := n', track := t, state := s, forcedSteps := forcedAcc }
    else
      let d := decide n' s
      let r := condAct reg d t s (clock n')
      runLoop reg decide clock fuel n' r.track r.state
        (forcedAcc ++ if r.forced then [n'] else [])

/-- The value returned by `Conductor.run` together with the final state
and observable loop trace. -/
structure RunResult where
  finalStatus : GlobalStatus
  stepCount : Nat
  state : BlackboardState
  forcedSteps : List Nat

/-- `Conductor.run`: run the loop from step 0 with an empty tracker; if
the budget is exhausted without reaching a terminal status, force
FAILED with the fixed reason "Max conductor steps exceeded". -/
def conductorRun (reg : Registry)
    (decide : Nat → BlackboardState → ConductorDecision)
    (clock : Nat → Nat) (maxSteps : Nat) (s : BlackboardState) : RunResult :=
  let r := runLoop reg decide clock maxSteps 0 {} s []
  let finalStatus := r.state.global_status
  if r.stepCount ≥ maxSteps ∧ ¬ finalStatus.isTerminal then
    { finalStatus := GlobalStatus.FAILED
      stepCount := r.stepCount
      state := set_status r.state GlobalStatus.FAILED
        "Max conductor steps exceeded" (clock (r.stepCount + 1))
      forcedSteps := r.forcedSteps }
  else
    { finalStatus := finalStatus
      stepCount := r.stepCount
      state := r.state
      forcedSteps := r.forcedSteps }

/-- Number of invocation-log records naming a given agent. -/
def countInvocations (a : String) (s : BlackboardState) : Nat :=
  (s.invocation_log.filter (fun r => r.agent_name = a)).length

-- ---------------------------------------------------------------------
-- Serialization (`model_dump_json` / `model_validate_json`): the state
-- is stored by the backend as self-describing JSON with the field names
-- of `models.py` preserved, and validated back field by field.
-- ---------------------------------------------------------------------

def natToJson (n : Nat) : JValue := JValue.num (Int.ofNat n)

def optNatToJson : Option Nat → JValue
  | none => JValue.null
  | some n => natToJson n

def optStrToJson : Option String → JValue
  | none => JValue.null
  | some s => JValue.str s

def strFromJson : JValue → Option String
  | JValue.str s => some s
  | _ => none

def natFromJson : JValue → Option Nat
  | JValue.num (Int.ofNat n) => some n
  | _ => none

def arrFromJson : JValue → Option (List JValue)
  | JValue.arr xs => some xs
  | _ => none

def objFromJson : JValue → Option (List (String × JValue))
  | JValue.obj fs => some fs
  | _ => none

/-- Consume the next serialized field, which must carry the expected
name (`model_dump_json` emits fields in declaration order). -/
def popField (key : String) (fields : List (String × JValue)) :
    Option (JValue × List (String × JValue)) :=
  match fields with
  | (k, v) :: rest => if k = key then some (v, rest) else none
  | [] => none

def optNatFromJson : JValue → Option (Option Nat)
  | JValue.null => some none
  | v => (natFromJson v).map some

def optStrFromJson : JValue → Option (Option String)
  | JValue.null => some none
  | v => (strFromJson v).map some

/-- Decode every element of a JSON array. -/
def decodeList {α : Type} (dec : JValue → Option α) :
    List JValue → Option (List α)
  | [] => some []
  | x :: xs =>
    match dec x, decodeList dec xs with
    | some a, some rest => some (a :: rest)
    | _, _ => none

/-- Decode a JSON object all of whose values are strings (the `warm`
map). -/
def decodeStrPairs : List (String × JValue) → Option (List (String × String))
  | [] => some []
  | (k, JValue.str v) :: rest =>
    (decodeStrPairs rest).map (fun tl => (k, v) :: tl)
  | _ => none

def globalStatusToJson (g : GlobalStatus) : JValue := JValue.str g.value

def globalStatusFromJson : JValue → Option GlobalStatus
  | JValue.str "PLANNING" => some GlobalStatus.PLANNING
  | JValue.str "EXECUTING" => some GlobalStatus.EXECUTING
  | JValue.str "REFINING" => some GlobalStatus.REFINING
  | JValue.str "VERIFYING" => some GlobalStatus.VERIFYING
  | JValue.str "WAITING_USER" => some GlobalStatus.WAITING_USER
  | JValue.str "COMPLETED" => some GlobalStatus.COMPLETED
  | JValue.str "FAILED" => some GlobalStatus.FAILED
  | _ => none

def hypStatusToJson (h : HypothesisStatus) : JValue := JValue.str h.value

def hypStatusFromJson : JValue → Option HypothesisStatus
  | JValue.str "proposed" => some HypothesisStatus.proposed
  | JValue.str "validated" => some HypothesisStatus.validated
  | JValue.str "rejected" => some HypothesisStatus.rejected
  | _ => none

def consStatusToJson (c : ConsensusStatus) : JValue := JValue.str c.value

def consStatusFromJson : JValue → Option ConsensusStatus
  | JValue.str "pending_review" => some ConsensusStatus.pending_review
  | JValue.str "in_review" => some ConsensusStatus.in_review
  | JValue.str "approved" => some ConsensusStatus.approved
  | JValue.str "rejected" => some ConsensusStatus.rejected
  | _ => none

def statusChangeToJson (c : StatusChange) : JValue :=
  JValue.obj [("from_status", JValue.str c.from_status),
              ("to_status", JValue.str c.to_status),
              ("reason", JValue.str c.reason),
              ("timestamp", natToJson c.timestamp)]

def statusChangeFromJson (v : JValue) : Option StatusChange := do
  let fields ← objFromJson v
  let p1 ← popField "from_status" fields
  let f ← strFromJson p1.1
  let p2 ← popField "to_status" p1.2
  let t ← strFromJson p2.1
  let p3 ← popField "reason" p2.2
  let r ← strFromJson p3.1
  let p4 ← popField "timestamp" p3.2
  let ts ← natFromJson p4.1
  pure { from_status := f, to_status := t, reason := r, timestamp := ts }

def hypothesisToJson (h : Hypothesis) : JValue :=
  JValue.obj [("id", JValue.str h.id),
              ("content", JValue.str h.content),
              ("author_agent", JValue.str h.author_agent),
              ("status", hypStatusToJson h.status),
              ("evidence", JValue.arr (h.evidence.map JValue.str)),
              ("timestamp", natToJson h.timestamp)]

def hypothesisFromJson (v : JValue) : Option Hypothesis := do
  let fields ← objFromJson v
  let p1 ← popField "id" fields
  let i ← strFromJson p1.1
  let p2 ← popField "content" p1.2
  let c ← strFromJson p2.1
  let p3 ← popField "author_agent" p2.2
  let a ← strFromJson p3.1
  let p4 ← popField "status" p3.2
  let st ← hypStatusFromJson p4.1
  let p5 ← popField "evidence" p4.2
  let ev ← arrFromJson p5.1
  let ev2 ← decodeList strFromJson ev
  let p6 ← popField "timestamp" p5.2
  let ts ← natFromJson p6.1
  pure { id := i, content := c, author_agent := a, status := st,
         evidence := ev2, timestamp := ts }

def reviewRecordToJson (r : ReviewRecord) : JValue :=
  JValue.obj [("reviewer_agent", JValue.str r.reviewer_agent),
              ("verdict", consStatusToJson r.verdict),
              ("critique", JValue.str r.critique),
              ("timestamp", natToJson r.timestamp)]

def reviewRecordFromJson (v : JValue) : Option ReviewRecord := do
  let fields ← objFromJson v
  let p1 ← popField "reviewer_agent" fields
  let a ← strFromJson p1.1
  let p2 ← popField "verdict" p1.2
  let vd ← consStatusFromJson p2.1
  let p3 ← popField "critique" p2.2
  let c ← strFromJson p3.1
  let p4 ← popField "timestamp" p3.2
  let ts ← natFromJson p4.1
  pure { reviewer_agent := a, verdict := vd, critique := c,
         timestamp := ts }

def consensusToJson (c : ConsensusState) : JValue :=
  JValue.obj [("target_field", JValue.str c.target_field),
              ("status", consStatusToJson c.status),
              ("review_history", JValue.arr
                 (c.review_history.map reviewRecordToJson)),
              ("max_iterations", natToJson c.max_iterations),
              ("current_iteration", natToJson c.current_iteration)]

def consensusFromJson (v : JValue) : Option ConsensusState := do
  let fields ← objFromJson v
  let p1 ← popField "target_field" fields
  let t ← strFromJson p1.1
  let p2 ← popField "status" p1.2
  let st ← consStatusFromJson p2.1
  let p3 ← popField "review_history" p2.2
  let rh ← arrFromJson p3.1
  let rh2 ← decodeList reviewRecordFromJson rh
  let p4 ← popField "max_iterations" p3.2
  let mi ← natFromJson p4.1
  let p5 ← popField "current_iteration" p4.2
  let ci ← natFromJson p5.1
  pure { target_field := t, status := st, review_history := rh2,
         max_iterations := mi, current_iteration := ci }

def optConsensusToJson : Option ConsensusState → JValue
  | none => JValue.null
  | some c => consensusToJson c

def optConsensusFromJson : JValue → Option (Option ConsensusState)
  | JValue.null => some none
  | v => (consensusFromJson v).map some

def memoryTierToJson (m : MemoryTier) : JValue :=
  JValue.obj [("hot", JValue.arr (m.hot.map JValue.str)),
              ("warm", JValue.obj (m.warm.map
                 (fun kv => (kv.1, JValue.str kv.2)))),
              ("cold_ref", JValue.str m.cold_ref)]

def memoryTierFromJson (v : JValue) : Option MemoryTier := do
  let fields ← objFromJson v
  let p1 ← popField "hot" fields
  let h ← arrFromJson p1.1
  let h2 ← decodeList strFromJson h
  let p2 ← popField "warm" p1.2
  let w ← objFromJson p2.1
  let w2 ← decodeStrPairs w
  let p3 ← popField "cold_ref" p2.2
  let c ← strFromJson p3.1
  pure { hot := h2, warm := w2, cold_ref := c }

def invocationToJson (r : AgentInvocationRecord) : JValue :=
  JValue.obj [("agent_name", JValue.str r.agent_name),
              ("started_at", natToJson r.started_at),
              ("finished_at", optNatToJson r.finished_at),
              ("input_tokens", natToJson r.input_tokens),
              ("output_tokens", natToJson r.output_tokens),
              ("status", JValue.str r.status),
              ("error", optStrToJson r.error)]

def invocationFromJson (v : JValue) : Option AgentInvocationRecord := do
  let fields ← objFromJson v
  let p1 ← popField "agent_name" fields
  let a ← strFromJson p1.1
  let p2 ← popField "started_at" p1.2
  let st ← natFromJson p2.1
  let p3 ← popField "finished_at" p2.2
  let fin ← optNatFromJson p3.1
  let p4 ← popField "input_tokens" p3.2
  let it ← natFromJson p4.1
  let p5 ← popField "output_tokens" p4.2
  let ot ← natFromJson p5.1
  let p6 ← popField "status" p5.2
  let sts ← strFromJson p6.1
  let p7 ← popField "error" p6.2
  let err ← optStrFromJson p7.1
  pure { agent_name := a, started_at := st, finished_at := fin,
         input_tokens := it, output_tokens := ot, status := sts,
         error := err }

/-- `BlackboardState.model_dump_json`, at the level of the JSON tree:
every field of `models.py`, in declaration order, under its own name. -/
def stateToJson (s : BlackboardState) : JValue :=
  JValue.obj [("task_id", JValue.str s.task_id),
              ("objective", JValue.str s.objective),
              ("created_at", natToJson s.created_at),
              ("updated_at", natToJson s.updated_at),
              ("global_status", globalStatusToJson s.global_status),
              ("status_history", JValue.arr
                 (s.status_history.map statusChangeToJson)),
              ("active_constraints", JValue.arr
                 (s.active_constraints.map JValue.str)),
              ("workspace", JValue.obj s.workspace),
              ("hypothesis_thread", JValue.arr
                 (s.hypothesis_thread.map hypothesisToJson)),
              ("consensus", optConsensusToJson s.consensus),
              ("memory", memoryTierToJson s.memory),
              ("invocation_log", JValue.arr
                 (s.invocation_log.map invocationToJson)),
              ("conductor_notes", JValue.str s.conductor_notes)]

/-- Validation of the metadata fields (`task_id` … `global_status`). -/
def stateMetaFromJson (fields : List (String × JValue)) :
    Option ((String × String × Nat × Nat × GlobalStatus) ×
            List (String × JValue)) := do
  let p1 ← popField "task_id" fields
  let tid ← strFromJson p1.1
  let p2 ← popField "objective" p1.2
  let obj ← strFromJson p2.1
  let p3 ← popField "created_at" p2.2
  let ca ← natFromJson p3.1
  let p4 ← popField "updated_at" p3.2
  let ua ← natFromJson p4.1
  let p5 ← popField "global_status" p4.2
  let gs ← globalStatusFromJson p5.1
  pure ((tid, obj, ca, ua, gs), p5.2)

/-- Validation of the list-valued fields (`status_history` …
`hypothesis_thread`). -/
def stateListsFromJson (fields : List (String × JValue)) :
    Option ((List StatusChange × List String × List (String × JValue) ×
             List Hypothesis) × List (String × JValue)) := do
  let p6 ← popField "status_history" fields
  let sh ← arrFromJson p6.1
  let sh2 ← decodeList statusChangeFromJson sh
  let p7 ← popField "active_constraints" p6.2
  let ac ← arrFromJson p7.1
  let ac2 ← decodeList strFromJson ac
  let p8 ← popField "workspace" p7.2
  let ws ← objFromJson p8.1
  let p9 ← popField "hypothesis_thread" p8.2
  let ht ← arrFromJson p9.1
  let ht2 ← decodeList hypothesisFromJson ht
  pure ((sh2, ac2, ws, ht2), p9.2)

/-- Validation of the trailing fields (`consensus` …
`conductor_notes`). -/
def stateTailFromJson (fields : List (String × JValue)) :
    Option (Option ConsensusState × MemoryTier ×
            List AgentInvocationRecord × String) := do
  let p10 ← popField "consensus" fields
  let cs ← optConsensusFromJson p10.1
  let p11 ← popField "memory" p10.2
  let mem ← memoryTierFromJson p11.1
  let p12 ← popField "invocation_log" p11.2
  let il ← arrFromJson p12.1
  let il2 ← decodeList invocationFromJson il
  let p13 ← popField "conductor_notes" p12.2
  let notes ← strFromJson p13.1
  pure (cs, mem, il2, notes)

/-- `BlackboardState.model_validate_json`, at the level of the JSON
tree: the serialized fields are validated in declaration order. -/
def stateFromJson (v : JValue) : Option BlackboardState := do
  let fields ← objFromJson v
  let m ← stateMetaFromJson fields
  let l ← stateListsFromJson m.2
  let t ← stateTailFromJson l.2
  pure { task_id := m.1.1, objective := m.1.2.1, created_at := m.1.2.2.1,
         updated_at := m.1.2.2.2.1, global_status := m.1.2.2.2.2,
         status_history := l.1.1, active_constraints := l.1.2.1,
         workspace := l.1.2.2.1, hypothesis_thread := l.1.2.2.2,
         consensus := t.1, memory := t.2.1, invocation_log := t.2.2.1,
         conductor_notes := t.2.2.2 }

-- ---------------------------------------------------------------------
-- `InMemoryBackend` (`blackboard.py`): a dictionary from task_id to the
-- serialized state; `save` overwrites, `load` parses or returns None.
-- ---------------------------------------------------------------------

def backendSave (store : List (String × JValue)) (s : BlackboardState) :
    List (String × JValue) :=
  dictSet store s.task_id (stateToJson s)

def backendLoad (store : List (String × JValue)) (taskId : String) :
    Option BlackboardState :=
  (dictGet store taskId).bind stateFromJson

def backendExists (store : List (String × JValue)) (taskId : String) : Bool :=
  dictContains store taskId

-- ---------------------------------------------------------------------
-- States reachable through the Blackboard API (for the consensus
-- bookkeeping invariant).
-- ---------------------------------------------------------------------

/-- The states producible by a sequence of `Blackboard` method calls
starting from `initialize`.  Fallible methods contribute their
successful results (their error paths raise before mutating). -/
inductive Reachable : BlackboardState → Prop where
  | init (tid obj : String) (cons : List String) (now : Nat) :
      Reachable (initBoard tid obj cons now)
  | setStatus {s} (st : GlobalStatus) (reason : String) (now : Nat) :
      Reachable s → Reachable (set_status s st reason now)
  | writeWorkspace {s} (field : String) (v : JValue) (now : Nat) :
      Reachable s → Reachable (write_workspace s field v now)
  | deleteWorkspace {s} (field : String) (now : Nat) :
      Reachable s → Reachable (delete_workspace s field now)
  | proposeHypothesis {s} (hid content author : String) (now : Nat) :
      Reachable s → Reachable (propose_hypothesis s hid content author now)
  | resolveHypothesis {s s'} (hid : String) (st : HypothesisStatus)
      (ev : String) (now : Nat) : Reachable s →
      resolve_hypothesis s hid st ev now = Except.ok s' → Reachable s'
  | startConsensus {s} (field : String) (maxIter now : Nat) :
      Reachable s → Reachable (start_consensus s field maxIter now)
  | submitReview {s s'} (reviewer : String) (verdict : ConsensusStatus)
      (critique : String) (now : Nat) : Reachable s →
      submit_review s reviewer verdict critique now = Except.ok s' →
      Reachable s'
  | clearConsensus {s} (now : Nat) :
      Reachable s → Reachable (clear_consensus s now)
  | logInvocationStart {s} (agent : String) (now : Nat) :
      Reachable s → Reachable (log_invocation_start s agent now)
  | logInvocationEnd {s} (idx : Nat) (status : String)
      (itok otok : Nat) (err : Option String) (now : Nat) :
      Reachable s →
      Reachable (log_invocation_end s idx status itok otok err now)
  | setConductorNotes {s} (notes : String) (now : Nat) :
      Reachable s → Reachable (set_conductor_notes s notes now)

/-- `k` consecutive `submit_review` calls with verdict REJECTED
(arbitrary reviewers, critiques and times), stopping at the first
raised error. -/
def submitRejects (rev crit : Nat → String) (clock : Nat → Nat) :
    Nat → BlackboardState → Except String BlackboardState
  | 0, s => Except.ok s
  | Nat.succ k, s =>
    match submitRejects rev crit clock k s with
    | Except.ok s' =>
      submit_review s' (rev (k + 1)) ConsensusStatus.rejected
        (crit (k + 1)) (clock (k + 1))
    | Except.error e => Except.error e

/-- Sample boards used to instantiate the general theorems at concrete
inputs. -/
def sampleLong : String := String.mk (List.replicate 500 'x')

def sampleLong250 : String := String.mk (List.replicate 250 'x')

def sampleBoard5 : BlackboardState :=
  write_workspace (initBoard "t5b" "o" [] 0) "code" (JValue.str "hello") 1

def sampleBoard5c : BlackboardState :=
  write_workspace (initBoard "t5" "o" [] 0) "code"
    (JValue.str sampleLong250) 1

def sampleBoard7 : BlackboardState :=
  write_workspace (initBoard "t7" "o" [] 0) "big" (JValue.str sampleLong) 1

/-- A board whose workspace holds a field literally named `a_summary`
while warm memory holds a summary for field `a`. -/
def sampleBoard6 : BlackboardState :=
  { task_id := "t6"
    workspace := [("a_summary", JValue.str "live")]
    memory := { warm := [("a", "S")] } }

/-- A board with one live workspace field and one warm summary. -/
def sampleBoard6w : BlackboardState :=
  { task_id := "t6w"
    workspace := [("code", JValue.str "x")]
    memory := { warm := [("old", "S")] } }

/-- A reviewing capability that approves the active consensus cycle. -/
def sampleCap4 : AgentCap := fun _ board =>
  { ok := true
    state :=
      match submit_review board "critic" ConsensusStatus.approved "ok" 3
        with
      | Except.ok b => b
      | Except.error _ => board }

def sampleReg4 : Registry := fun n =>
  if n = "critic" then some sampleCap4 else none

def sampleDecision4 : ConductorDecision :=
  { action := CAction.invoke_agent
    agent_name := some "critic"
    relevant_fields := ["code"]
    include_consensus := true }

/-- A board with a fresh 3-iteration consensus cycle on `code`. -/
def sampleBoard4 : BlackboardState :=
  start_consensus
    (write_workspace (initBoard "t4" "o" [] 0) "code" (JValue.str "v") 1)
    "code" 3 2

/-- `sampleBoard4` after an APPROVED review on the first iteration. -/
def sampleBoard4b : BlackboardState :=
  match submit_review sampleBoard4 "critic" ConsensusStatus.approved "ok" 3
    with
  | Except.ok b => b
  | Except.error _ => sampleBoard4

-- =====================================================================
-- Theorems
-- =====================================================================

/-- One REJECTED review on an active cycle: it never raises, appends
one record, increments the iteration, and approves exactly when the
incremented iteration has reached `max_iterations`. -/
theorem submit_rejected_step (s : BlackboardState) (c : ConsensusState)
    (hcons : s.consensus = some c) (r cr : String) (now : Nat) :
    ∃ s' c', submit_review s r ConsensusStatus.rejected cr now =
        Except.ok s' ∧
      s'.consensus = some c' ∧
      c'.current_iteration = c.current_iteration + 1 ∧
      c'.max_iterations = c.max_iterations ∧
      c'.review_history = c.review_history ++
        [{ reviewer_agent := r, verdict := ConsensusStatus.rejected,
           critique := cr, timestamp := now }] ∧
      c'.status = (if c.current_iteration + 1 ≥ c.max_iterations then
          ConsensusStatus.approved else ConsensusStatus.rejected) ∧
      s'.global_status = s.global_status := by
  simp only [submit_review, hcons]
  split
  · simp_all
  · split
    · exact ⟨_, _, rfl, rfl, rfl, rfl, rfl, by simp_all, rfl⟩
    · exact ⟨_, _, rfl, rfl, rfl, rfl, rfl, by simp_all, rfl⟩

/-- After `k ≤ N` consecutive REJECTED reviews on a fresh cycle with
cap `N`, the submission chain has never raised, the iteration counter
is `k`, the task status is untouched, and the cycle status is
pending for `k = 0`, REJECTED for `0 < k < N`, APPROVED at `k = N`. -/
theorem submitRejects_spec (rev crit : Nat → String) (clock : Nat → Nat)
    (N : Nat) (s₀ : BlackboardState) (c₀ : ConsensusState)
    (h : s₀.consensus = some c₀) (h0 : c₀.current_iteration = 0)
    (hmax : c₀.max_iterations = N) :
    ∀ k, k ≤ N → ∃ sk ck,
      submitRejects rev crit clock k s₀ = Except.ok sk ∧
      sk.consensus = some ck ∧
      ck.current_iteration = k ∧
      ck.max_iterations = N ∧
      sk.global_status = s₀.global_status ∧
      ck.status = (if k = 0 then c₀.status
                   else if k ≥ N then ConsensusStatus.approved
                   else ConsensusStatus.rejected) := by
  intro k
  induction k with
  | zero =>
    intro _
    exact ⟨s₀, c₀, rfl, h, h0, hmax, rfl, by simp⟩
  | succ k ih =>
    intro hk
    obtain ⟨sk, ck, hrun, hcons, hit, hmx, hgs, _⟩ :=
      ih (Nat.le_of_succ_le hk)
    obtain ⟨s', c', hstep, hcons', hit', hmx', _, hst', hgs'⟩ :=
      submit_rejected_step sk ck hcons (rev (k + 1)) (crit (k + 1))
        (clock (k + 1))
    refine ⟨s', c', ?_, hcons', by omega, by omega, by rw [hgs', hgs], ?_⟩
    · simp only [submitRejects, hrun, hstep]
    · rw [hst', hit, hmx]
      have hne : ¬ (k + 1 = 0) := by omega
      simp [hne]

/-- C1: for every consensus cycle started with `max_iterations = N ≥ 1`,
submitting `N` consecutive REJECTED reviews leaves the cycle REJECTED
(never APPROVED, and no call raises) after each of the first `N - 1`
submissions, and the `N`-th REJECTED submission force-approves: the
status becomes APPROVED, never earlier and never a failure. -/
theorem C1_consensus_forced_approval (rev crit : Nat → String)
    (clock : Nat → Nat) (N : Nat) (hN : 1 ≤ N) (s : BlackboardState)
    (target : String) (now : Nat) :
    (∀ k, 1 ≤ k → k < N → ∃ sk ck,
        submitRejects rev crit clock k
          (start_consensus s target N now) = Except.ok sk ∧
        sk.consensus = some ck ∧
        ck.status = ConsensusStatus.rejected ∧
        sk.global_status = (start_consensus s target N now).global_status) ∧
    (∃ sN cN,
        submitRejects rev crit clock N
          (start_consensus s target N now) = Except.ok sN ∧
        sN.consensus = some cN ∧
        cN.status = ConsensusStatus.approved ∧
        cN.current_iteration = N) := by
  have hfresh : (start_consensus s target N now).consensus =
      some { target_field := target, max_iterations := N } := rfl
  have spec := submitRejects_spec rev crit clock N
    (start_consensus s target N now)
    { target_field := target, max_iterations := N } hfresh rfl rfl
  constructor
  · intro k hk1 hkN
    obtain ⟨sk, ck, hrun, hcons, _, _, hgs, hst⟩ :=
      spec k (Nat.le_of_lt hkN)
    refine ⟨sk, ck, hrun, hcons, ?_, hgs⟩
    rw [hst]
    have h1 : ¬ (k = 0) := by omega
    have h2 : ¬ (k ≥ N) := by omega
    simp [h1, h2]
  · obtain ⟨sN, cN, hrun, hcons, hit, _, _, hst⟩ := spec N (Nat.le_refl N)
    refine ⟨sN, cN, hrun, hcons, ?_, hit⟩
    rw [hst]
    have h1 : ¬ (N = 0) := by omega
    simp [h1]

/-- Concrete instance of `C1_consensus_forced_approval` at `N = 2`. -/
theorem C1_consensus_forced_approval_witness :
    (∀ k, 1 ≤ k → k < 2 → ∃ sk ck,
        submitRejects (fun _ => "critic") (fun _ => "bad") (fun n => n) k
          (start_consensus (initBoard "t1" "obj" [] 0) "code" 2 1) =
            Except.ok sk ∧
        sk.consensus = some ck ∧
        ck.status = ConsensusStatus.rejected ∧
        sk.global_status =
          (start_consensus (initBoard "t1" "obj" [] 0) "code" 2
            1).global_status) ∧
    (∃ sN cN,
        submitRejects (fun _ => "critic") (fun _ => "bad") (fun n => n) 2
          (start_consensus (initBoard "t1" "obj" [] 0) "code" 2 1) =
            Except.ok sN ∧
        sN.consensus = some cN ∧
        cN.status = ConsensusStatus.approved ∧
        cN.current_iteration = 2) :=
  C1_consensus_forced_approval (fun _ => "critic") (fun _ => "bad")
    (fun n => n) 2 (by decide) (initBoard "t1" "obj" [] 0) "code" 1

/-- The search loop of `resolve_hypothesis` finds nothing exactly when
no hypothesis in the thread has the requested id. -/
theorem resolveThread_none (thread : List Hypothesis) (hid : String)
    (st : HypothesisStatus) (ev : String)
    (hmiss : ∀ h ∈ thread, h.id ≠ hid) :
    resolveThread thread hid st ev = none := by
  induction thread with
  | nil => rfl
  | cons h rest ih =>
    have hne : h.id ≠ hid := hmiss h (List.mem_cons_self h rest)
    simp only [resolveThread, hne, if_false]
    rw [ih (fun h' hh' => hmiss h' (List.mem_cons_of_mem h hh'))]
    rfl

/-- C9: resolving a hypothesis id that is not in the thread raises the
"not found" error; since the search loop mutates only on a match, the
thread (every id, content, status and evidence) is untouched on this
path — the call produces no successor state at all. -/
theorem C9_resolve_missing_hypothesis (s : BlackboardState) (hid : String)
    (st : HypothesisStatus) (ev : String) (now : Nat)
    (hmiss : ∀ h ∈ s.hypothesis_thread, h.id ≠ hid) :
    resolve_hypothesis s hid st ev now =
      Except.error ("Hypothesis \x27" ++ hid ++ "\x27 not found.") := by
  unfold resolve_hypothesis
  rw [resolveThread_none s.hypothesis_thread hid st ev hmiss]

/-- Concrete instance of `C9_resolve_missing_hypothesis`: a thread
holding one hypothesis with id "abc" rejects id "zzz". -/
theorem C9_resolve_missing_hypothesis_witness :
    resolve_hypothesis
      (propose_hypothesis (initBoard "t2" "obj" [] 0) "abc" "maybe X"
        "debugger" 1)
      "zzz" HypothesisStatus.validated "evidence" 2 =
      Except.error "Hypothesis \x27zzz\x27 not found." :=
  C9_resolve_missing_hypothesis _ "zzz" HypothesisStatus.validated
    "evidence" 2 (by decide)

/-- C10: in every state reachable through the Blackboard API, an active
consensus cycle's `current_iteration` equals the length of its
`review_history`: the cycle is created at iteration 0 with an empty
history and each review appends exactly one record while incrementing
the counter by one. -/
theorem C10_consensus_iteration_invariant (s : BlackboardState)
    (hs : Reachable s) :
    ∀ c, s.consensus = some c →
      c.current_iteration = c.review_history.length := by
  induction hs with
  | init tid obj cons now =>
    intro c hc
    simp [initBoard] at hc
  | setStatus st reason now _ ih =>
    intro c hc
    exact ih c hc
  | writeWorkspace field v now _ ih =>
    intro c hc
    exact ih c hc
  | deleteWorkspace field now _ ih =>
    intro c hc
    exact ih c hc
  | proposeHypothesis hid content author now _ ih =>
    intro c hc
    exact ih c hc
  | resolveHypothesis hid st ev now _ heq ih =>
    intro c hc
    unfold resolve_hypothesis at heq
    cases hm : resolveThread _ hid st ev with
    | none => rw [hm] at heq; cases heq
    | some t =>
      rw [hm] at heq
      cases heq
      exact ih c hc
  | startConsensus field maxIter now _ ih =>
    intro c hc
    simp only [start_consensus, BlackboardState.touch] at hc
    cases hc
    rfl
  | submitReview reviewer verdict critique now _ heq ih =>
    intro c hc
    rename_i s₁ s₂ _
    unfold submit_review at heq
    cases hcons : s₁.consensus with
    | none => rw [hcons] at heq; cases heq
    | some c₁ =>
      rw [hcons] at heq
      have h₁ := ih c₁ hcons
      simp only [] at heq
      split at heq <;>
        (cases heq
         simp only [BlackboardState.touch] at hc
         cases hc
         (try split) <;> (try simp) <;> exact h₁)
  | clearConsensus now _ ih =>
    intro c hc
    simp [clear_consensus, BlackboardState.touch] at hc
  | logInvocationStart agent now _ ih =>
    intro c hc
    exact ih c hc
  | logInvocationEnd idx status itok otok err now _ ih =>
    intro c hc
    exact ih c hc
  | setConductorNotes notes now _ ih =>
    intro c hc
    exact ih c hc

/-- Concrete instance of `C10_consensus_iteration_invariant` right
after starting a cycle. -/
theorem C10_consensus_iteration_invariant_witness :
    (start_consensus (initBoard "t3" "obj" [] 0) "code" 3 1).consensus =
      some { target_field := "code", status := ConsensusStatus.pending_review,
             review_history := [], max_iterations := 3,
             current_iteration := 0 } ∧
    (0 : Nat) = ([] : List ReviewRecord).length :=
  ⟨rfl,
   C10_consensus_iteration_invariant _
     (Reachable.startConsensus "code" 3 1 (Reachable.init "t3" "obj" [] 0))
     { target_field := "code", status := ConsensusStatus.pending_review,
       review_history := [], max_iterations := 3, current_iteration := 0 }
     rfl⟩

theorem decodeList_map {α : Type} (dec : JValue → Option α)
    (enc : α → JValue) (h : ∀ a, dec (enc a) = some a) (xs : List α) :
    decodeList dec (xs.map enc) = some xs := by
  induction xs with
  | nil => rfl
  | cons x xs ih => simp [decodeList, h, ih]

theorem decodeStrPairs_map (xs : List (String × String)) :
    decodeStrPairs (xs.map (fun kv => (kv.1, JValue.str kv.2))) =
      some xs := by
  induction xs with
  | nil => rfl
  | cons kv xs ih => simp [decodeStrPairs, ih]

theorem strFromJson_rt (s : String) : strFromJson (JValue.str s) = some s :=
  rfl

theorem natFromJson_rt (n : Nat) : natFromJson (natToJson n) = some n :=
  rfl

theorem globalStatus_rt (g : GlobalStatus) :
    globalStatusFromJson (globalStatusToJson g) = some g := by
  cases g <;> rfl

theorem hypStatus_rt (h : HypothesisStatus) :
    hypStatusFromJson (hypStatusToJson h) = some h := by
  cases h <;> rfl

theorem consStatus_rt (c : ConsensusStatus) :
    consStatusFromJson (consStatusToJson c) = some c := by
  cases c <;> rfl

theorem optNat_rt (o : Option Nat) :
    optNatFromJson (optNatToJson o) = some o := by
  cases o <;> rfl

theorem optStr_rt (o : Option String) :
    optStrFromJson (optStrToJson o) = some o := by
  cases o <;> rfl

theorem statusChange_rt (c : StatusChange) :
    statusChangeFromJson (statusChangeToJson c) = some c := rfl

theorem hypothesis_rt (h : Hypothesis) :
    hypothesisFromJson (hypothesisToJson h) = some h := by
  obtain ⟨i, c, a, st, ev, ts⟩ := h
  show (hypStatusFromJson (hypStatusToJson st)).bind (fun st2 =>
      (decodeList strFromJson (ev.map JValue.str)).bind (fun ev2 =>
        some ({ id := i, content := c, author_agent := a, status := st2,
                evidence := ev2, timestamp := ts } : Hypothesis))) =
    some ({ id := i, content := c, author_agent := a, status := st,
            evidence := ev, timestamp := ts } : Hypothesis)
  rw [hypStatus_rt, decodeList_map strFromJson JValue.str strFromJson_rt]
  rfl

theorem reviewRecord_rt (r : ReviewRecord) :
    reviewRecordFromJson (reviewRecordToJson r) = some r := by
  obtain ⟨a, vd, c, ts⟩ := r
  show (consStatusFromJson (consStatusToJson vd)).bind (fun vd2 =>
      some ({ reviewer_agent := a, verdict := vd2, critique := c,
              timestamp := ts } : ReviewRecord)) =
    some ({ reviewer_agent := a, verdict := vd, critique := c,
            timestamp := ts } : ReviewRecord)
  rw [consStatus_rt]
  rfl

theorem consensus_rt (c : ConsensusState) :
    consensusFromJson (consensusToJson c) = some c := by
  obtain ⟨t, st, rh, mi, ci⟩ := c
  show (consStatusFromJson (consStatusToJson st)).bind (fun st2 =>
      (decodeList reviewRecordFromJson (rh.map reviewRecordToJson)).bind
        (fun rh2 =>
          some ({ target_field := t, status := st2, review_history := rh2,
                  max_iterations := mi,
                  current_iteration := ci } : ConsensusState))) =
    some ({ target_field := t, status := st, review_history := rh,
            max_iterations := mi,
            current_iteration := ci } : ConsensusState)
  rw [consStatus_rt,
    decodeList_map reviewRecordFromJson reviewRecordToJson reviewRecord_rt]
  rfl

theorem optConsensus_rt (o : Option ConsensusState) :
    optConsensusFromJson (optConsensusToJson o) = some o := by
  cases o with
  | none => rfl
  | some c =>
    show (consensusFromJson (consensusToJson c)).map some = some (some c)
    rw [consensus_rt]
    rfl

theorem memoryTier_rt (m : MemoryTier) :
    memoryTierFromJson (memoryTierToJson m) = some m := by
  obtain ⟨hot, warm, cold⟩ := m
  show (decodeList strFromJson (hot.map JValue.str)).bind (fun h2 =>
      (decodeStrPairs (warm.map (fun kv => (kv.1, JValue.str kv.2)))).bind
        (fun w2 =>
          some ({ hot := h2, warm := w2, cold_ref := cold } :
            MemoryTier))) =
    some ({ hot := hot, warm := warm, cold_ref := cold } : MemoryTier)
  rw [decodeList_map strFromJson JValue.str strFromJson_rt,
    decodeStrPairs_map]
  rfl

theorem invocation_rt (r : AgentInvocationRecord) :
    invocationFromJson (invocationToJson r) = some r := by
  obtain ⟨a, st, fin, it, ot, sts, err⟩ := r
  show (optNatFromJson (optNatToJson fin)).bind (fun fin2 =>
      (optStrFromJson (optStrToJson err)).bind (fun err2 =>
        some ({ agent_name := a, started_at := st, finished_at := fin2,
                input_tokens := it, output_tokens := ot, status := sts,
                error := err2 } : AgentInvocationRecord))) =
    some ({ agent_name := a, started_at := st, finished_at := fin,
            input_tokens := it, output_tokens := ot, status := sts,
            error := err } : AgentInvocationRecord)
  rw [optNat_rt, optStr_rt]
  rfl

theorem stateMeta_rt (tid obj : String) (ca ua : Nat) (gs : GlobalStatus)
    (rest : List (String × JValue)) :
    stateMetaFromJson (("task_id", JValue.str tid) ::
      ("objective", JValue.str obj) :: ("created_at", natToJson ca) ::
      ("updated_at", natToJson ua) ::
      ("global_status", globalStatusToJson gs) :: rest) =
    some ((tid, obj, ca, ua, gs), rest) := by
  show (globalStatusFromJson (globalStatusToJson gs)).bind (fun gs2 =>
      some ((tid, obj, ca, ua, gs2), rest)) =
    some ((tid, obj, ca, ua, gs), rest)
  rw [globalStatus_rt]
  rfl

theorem stateLists_rt (sh : List StatusChange) (ac : List String)
    (ws : List (String × JValue)) (ht : List Hypothesis)
    (rest : List (String × JValue)) :
    stateListsFromJson
      (("status_history", JValue.arr (sh.map statusChangeToJson)) ::
       ("active_constraints", JValue.arr (ac.map JValue.str)) ::
       ("workspace", JValue.obj ws) ::
       ("hypothesis_thread", JValue.arr (ht.map hypothesisToJson)) ::
       rest) =
    some ((sh, ac, ws, ht), rest) := by
  show (decodeList statusChangeFromJson (sh.map statusChangeToJson)).bind
      (fun sh2 => (decodeList strFromJson (ac.map JValue.str)).bind
        (fun ac2 =>
          (decodeList hypothesisFromJson (ht.map hypothesisToJson)).bind
            (fun ht2 => some ((sh2, ac2, ws, ht2), rest)))) =
    some ((sh, ac, ws, ht), rest)
  rw [decodeList_map statusChangeFromJson statusChangeToJson
      statusChange_rt,
    decodeList_map strFromJson JValue.str strFromJson_rt,
    decodeList_map hypothesisFromJson hypothesisToJson hypothesis_rt]
  rfl

theorem stateTail_rt (cs : Option ConsensusState) (mem : MemoryTier)
    (il : List AgentInvocationRecord) (notes : String) :
    stateTailFromJson
      [("consensus", optConsensusToJson cs),
       ("memory", memoryTierToJson mem),
       ("invocation_log", JValue.arr (il.map invocationToJson)),
       ("conductor_notes", JValue.str notes)] =
    some (cs, mem, il, notes) := by
  show (optConsensusFromJson (optConsensusToJson cs)).bind (fun cs2 =>
      (memoryTierFromJson (memoryTierToJson mem)).bind (fun mem2 =>
        (decodeList invocationFromJson (il.map invocationToJson)).bind
          (fun il2 => some (cs2, mem2, il2, notes)))) =
    some (cs, mem, il, notes)
  rw [optConsensus_rt, memoryTier_rt,
    decodeList_map invocationFromJson invocationToJson invocation_rt]
  rfl

/-- `model_validate_json` inverts `model_dump_json` on every state. -/
theorem state_rt (s : BlackboardState) :
    stateFromJson (stateToJson s) = some s := by
  obtain ⟨tid, obj, ca, ua, gs, sh, ac, ws, ht, cs, mem, il, notes⟩ := s
  have h1 := stateMeta_rt tid obj ca ua gs
    [("status_history", JValue.arr (sh.map statusChangeToJson)),
     ("active_constraints", JValue.arr (ac.map JValue.str)),
     ("workspace", JValue.obj ws),
     ("hypothesis_thread", JValue.arr (ht.map hypothesisToJson)),
     ("consensus", optConsensusToJson cs),
     ("memory", memoryTierToJson mem),
     ("invocation_log", JValue.arr (il.map invocationToJson)),
     ("conductor_notes", JValue.str notes)]
  have h2 := stateLists_rt sh ac ws ht
    [("consensus", optConsensusToJson cs),
     ("memory", memoryTierToJson mem),
     ("invocation_log", JValue.arr (il.map invocationToJson)),
     ("conductor_notes", JValue.str notes)]
  have h3 := stateTail_rt cs mem il notes
  show (stateMetaFromJson
      (("task_id", JValue.str tid) :: ("objective", JValue.str obj) ::
       ("created_at", natToJson ca) :: ("updated_at", natToJson ua) ::
       ("global_status", globalStatusToJson gs) ::
       [("status_history", JValue.arr (sh.map statusChangeToJson)),
        ("active_constraints", JValue.arr (ac.map JValue.str)),
        ("workspace", JValue.obj ws),
        ("hypothesis_thread", JValue.arr (ht.map hypothesisToJson)),
        ("consensus", optConsensusToJson cs),
        ("memory", memoryTierToJson mem),
        ("invocation_log", JValue.arr (il.map invocationToJson)),
        ("conductor_notes", JValue.str notes)])).bind (fun m =>
      (stateListsFromJson m.2).bind (fun l =>
        (stateTailFromJson l.2).bind (fun t =>
          some ({ task_id := m.1.1, objective := m.1.2.1,
                  created_at := m.1.2.2.1, updated_at := m.1.2.2.2.1,
                  global_status := m.1.2.2.2.2, status_history := l.1.1,
                  active_constraints := l.1.2.1, workspace := l.1.2.2.1,
                  hypothesis_thread := l.1.2.2.2, consensus := t.1,
                  memory := t.2.1, invocation_log := t.2.2.1,
                  conductor_notes := t.2.2.2 } : BlackboardState)))) =
    some ({ task_id := tid, objective := obj, created_at := ca,
            updated_at := ua, global_status := gs, status_history := sh,
            active_constraints := ac, workspace := ws,
            hypothesis_thread := ht, consensus := cs, memory := mem,
            invocation_log := il,
            conductor_notes := notes } : BlackboardState)
  rw [h1, Option.some_bind, h2, Option.some_bind, h3, Option.some_bind]

theorem dictGet_dictSet_self {α : Type} (m : List (String × α))
    (k : String) (v : α) : dictGet (dictSet m k v) k = some v := by
  induction m with
  | nil => simp [dictSet, dictGet]
  | cons kv rest ih =>
    by_cases hk : kv.1 = k <;> simp [dictSet, dictGet, hk, ih]

/-- C8: save-then-load round trip on the in-memory backend — loading
the task_id just saved returns a state equal to the saved one in every
field. -/
theorem C8_save_load_roundtrip (store : List (String × JValue))
    (s : BlackboardState) :
    backendLoad (backendSave store s) s.task_id = some s := by
  unfold backendLoad backendSave
  rw [dictGet_dictSet_self]
  exact state_rt s

theorem pyTake_len (s : String) (n : Nat) :
    (pyTake s n).length = min n s.length := by
  show (s.data.take n).length = min n s.length
  rw [List.length_take]
  rfl

theorem pyTake_ne (s : String) (n : Nat) (h : n < s.length) :
    pyTake s n ≠ s := by
  intro hEq
  have hlen := congrArg String.length hEq
  rw [pyTake_len] at hlen
  omega

theorem wsLine_long_str (warm : List (String × String)) (key v : String)
    (hwarm : dictGet warm key = none) (hlen : 200 < v.length) :
    wsLine warm (key, JValue.str v) =
      "  " ++ key ++ ": " ++ pyTake v 150 ++ "... (" ++
        toString v.length ++ " chars)" := by
  unfold wsLine
  rw [hwarm]
  simp only [if_pos hlen]

/-- C7: a workspace field without a warm summary whose string value
exceeds the 200-character threshold is rendered in the dashboard as its
150-character prefix plus an explicit character count — never as the
full value. -/
theorem C7_dashboard_truncates_long_strings (s : BlackboardState)
    (key v : String) (hmem : (key, JValue.str v) ∈ s.workspace)
    (hwarm : dictGet s.memory.warm key = none) (hlen : 200 < v.length) :
    ("  " ++ key ++ ": " ++ pyTake v 150 ++ "... (" ++
       toString v.length ++ " chars)") ∈ dashboardLines s ∧
    pyTake v 150 ≠ v := by
  constructor
  · have hmap : wsLine s.memory.warm (key, JValue.str v) ∈
        s.workspace.map (wsLine s.memory.warm) :=
      List.mem_map_of_mem _ hmem
    rw [wsLine_long_str s.memory.warm key v hwarm hlen] at hmap
    have hne : s.workspace.isEmpty = false := by
      cases hws : s.workspace with
      | nil => rw [hws] at hmem; cases hmem
      | cons a l => rfl
    unfold dashboardLines
    simp only [hne, Bool.false_eq_true, if_false, List.mem_append]
    left; left; left; left
    right
    exact List.mem_cons_of_mem _ hmap
  · exact pyTake_ne v 150 (by omega)

set_option maxRecDepth 8192 in
/-- Concrete instance of `C7_dashboard_truncates_long_strings`: a
500-character value renders as a 150-character prefix followed by
"... (500 chars)". -/
theorem C7_dashboard_truncates_long_strings_witness :
    ("  big: " ++ pyTake sampleLong 150 ++ "... (" ++
       toString sampleLong.length ++ " chars)") ∈
      dashboardLines sampleBoard7 ∧
    pyTake sampleLong 150 ≠ sampleLong :=
  C7_dashboard_truncates_long_strings sampleBoard7 "big" sampleLong
    (List.Mem.head _) rfl (by decide)

theorem countOcc_cons (y x : String) (ys : List String) :
    countOcc (y :: ys) x = (if y = x then 1 else 0) + countOcc ys x := by
  by_cases h : y = x <;>
    simp [countOcc, List.filter_cons, h, Nat.add_comm]

theorem countOcc_zero_not_mem (xs : List String) (x : String)
    (h : countOcc xs x = 0) : x ∉ xs := by
  induction xs with
  | nil => simp
  | cons y ys ih =>
    rw [countOcc_cons] at h
    by_cases hyx : y = x
    · rw [if_pos hyx] at h
      omega
    · rw [if_neg hyx] at h
      simp only [List.mem_cons, not_or]
      exact ⟨fun hx => hyx hx.symm, ih (by omega)⟩

theorem listRemove_not_mem (xs : List String) (x : String)
    (h : countOcc xs x ≤ 1) : x ∉ listRemove xs x := by
  induction xs with
  | nil => simp [listRemove]
  | cons y ys ih =>
    rw [countOcc_cons] at h
    by_cases hyx : y = x
    · rw [if_pos hyx] at h
      simp only [listRemove, if_pos hyx]
      exact countOcc_zero_not_mem ys x (by omega)
    · rw [if_neg hyx] at h
      simp only [listRemove, if_neg hyx, List.mem_cons, not_or]
      exact ⟨fun hx => hyx hx.symm, ih (by omega)⟩

theorem contains_false_of_not_mem (xs : List String) (x : String)
    (h : x ∉ xs) : xs.contains x = false := by
  simpa using h

theorem not_mem_of_contains_false (xs : List String) (x : String)
    (h : xs.contains x = false) : x ∉ xs := by
  simpa using h

theorem dictSet_dictSet {α : Type} (m : List (String × α)) (k : String)
    (v v' : α) : dictSet (dictSet m k v) k v' = dictSet m k v' := by
  induction m with
  | nil => simp [dictSet]
  | cons kv rest ih =>
    by_cases hk : kv.1 = k <;> simp [dictSet, hk, ih]

/-- Unfolding of `compress_to_warm` on a present field. -/
theorem compress_spec (llm : Option (String → String))
    (s : BlackboardState) (field : String) (now : Nat) (content : JValue)
    (hget : dictGet s.workspace field = some content) :
    compress_to_warm llm s field now =
      ({ s with
          memory := { s.memory with
            warm := dictSet s.memory.warm field (summaryOf llm content)
            hot := if s.memory.hot.contains field then
                     listRemove s.memory.hot field
                   else s.memory.hot }
          updated_at := now }, summaryOf llm content) := by
  unfold compress_to_warm
  rw [hget]
  rfl

set_option maxRecDepth 8192 in
/-- C5 (counterexample to "replaces the field's live value"): after
compressing a 250-character artifact, the workspace still holds the
full original value, which differs from the produced summary. -/
theorem C5_compress_counterexample :
    read_workspace (compress_to_warm none sampleBoard5c "code" 2).1
        "code" = some (JValue.str sampleLong250) ∧
    (compress_to_warm none sampleBoard5c "code" 2).2 ≠ sampleLong250 :=
  ⟨rfl, by decide⟩

/-- C5 (amended): `compress_to_warm` on a field present in the
workspace records the summary in warm memory and removes the field from
the hot list (which holds it at most once), while the live workspace
value itself stays in place; a second call on the already-compressed
field is safe and changes nothing but `updated_at`; on an absent field
it returns the empty summary and the state unchanged. -/
theorem C5_compress_to_warm_amended (llm : Option (String → String))
    (s : BlackboardState) (field : String) (now now2 : Nat)
    (hcount : countOcc s.memory.hot field ≤ 1) :
    (∀ content, dictGet s.workspace field = some content →
      dictGet (compress_to_warm llm s field now).1.memory.warm field =
        some (compress_to_warm llm s field now).2 ∧
      field ∉ (compress_to_warm llm s field now).1.memory.hot ∧
      (compress_to_warm llm s field now).1.workspace = s.workspace ∧
      compress_to_warm llm (compress_to_warm llm s field now).1 field
          now2 =
        (((compress_to_warm llm s field now).1).touch now2,
         (compress_to_warm llm s field now).2)) ∧
    (dictGet s.workspace field = none →
      compress_to_warm llm s field now = (s, "")) := by
  constructor
  · intro content hget
    have hspec := compress_spec llm s field now content hget
    have hnotmem :
        field ∉ (compress_to_warm llm s field now).1.memory.hot := by
      rw [hspec]
      by_cases hc : s.memory.hot.contains field = true
      · simp only [hc, if_true]
        exact listRemove_not_mem s.memory.hot field hcount
      · simp only [Bool.not_eq_true] at hc
        simp only [hc, Bool.false_eq_true, if_false]
        exact not_mem_of_contains_false s.memory.hot field hc
    have hc2 :
        (compress_to_warm llm s field now).1.memory.hot.contains field =
          false := contains_false_of_not_mem _ _ hnotmem
    refine ⟨?_, hnotmem, ?_, ?_⟩
    · rw [hspec]
      exact dictGet_dictSet_self s.memory.warm field (summaryOf llm content)
    · rw [hspec]
    · have hget2 : dictGet (compress_to_warm llm s field now).1.workspace
          field = some content := by rw [hspec]; exact hget
      have hspec2 := compress_spec llm (compress_to_warm llm s field now).1
        field now2 content hget2
      rw [hspec2, hc2]
      simp only [Bool.false_eq_true, if_false]
      rw [hspec]
      simp only [dictSet_dictSet]
      rfl
  · intro hnone
    unfold compress_to_warm
    rw [hnone]

/-- Concrete instance of `C5_compress_to_warm_amended` on a board with
one hot workspace field. -/
theorem C5_compress_to_warm_amended_witness :
    (∀ content, dictGet sampleBoard5.workspace "code" = some content →
      dictGet (compress_to_warm none sampleBoard5 "code" 2).1.memory.warm
          "code" =
        some (compress_to_warm none sampleBoard5 "code" 2).2 ∧
      "code" ∉ (compress_to_warm none sampleBoard5 "code" 2).1.memory.hot ∧
      (compress_to_warm none sampleBoard5 "code" 2).1.workspace =
        sampleBoard5.workspace ∧
      compress_to_warm none (compress_to_warm none sampleBoard5 "code"
          2).1 "code" 3 =
        (((compress_to_warm none sampleBoard5 "code" 2).1).touch 3,
         (compress_to_warm none sampleBoard5 "code" 2).2)) ∧
    (dictGet sampleBoard5.workspace "code" = none →
      compress_to_warm none sampleBoard5 "code" 2 = (sampleBoard5, "")) :=
  C5_compress_to_warm_amended none sampleBoard5 "code" 2 3 (by decide)

theorem dictGet_dictSet {α : Type} (m : List (String × α)) (k k' : String)
    (v : α) :
    dictGet (dictSet m k v) k' = if k = k' then some v else dictGet m k' := by
  induction m with
  | nil => by_cases h : k = k' <;> simp [dictSet, dictGet, h]
  | cons kv rest ih =>
    by_cases h1 : kv.1 = k
    · by_cases h2 : k = k' <;> simp [dictSet, dictGet, h1, h2]
    · by_cases h2 : kv.1 = k'
      · have h3 : ¬ k = k' := fun he => h1 (h2.trans he.symm)
        have h4 : ¬ k' = k := fun he => h3 he.symm
        simp [dictSet, dictGet, h1, h2, h3, h4]
      · simp [dictSet, dictGet, h1, h2, ih]

/-- One step of the slice loop applies the field's contribution. -/
theorem slice_loop_step (ws : List (String × JValue))
    (warm : List (String × String)) (f : String) (rest : List String)
    (acc : List (String × JValue)) :
    sliceWorkspaceLoop ws warm (f :: rest) acc =
      sliceWorkspaceLoop ws warm rest
        (match contribKey ws warm f with
         | some kv => dictSet acc kv.1 kv.2
         | none => acc) := by
  cases h1 : dictGet ws f with
  | some v => simp [sliceWorkspaceLoop, contribKey, h1]
  | none =>
    cases h2 : dictGet warm f with
    | some su => simp [sliceWorkspaceLoop, contribKey, h1, h2]
    | none => simp [sliceWorkspaceLoop, contribKey, h1, h2]

theorem contribKey_cases (ws : List (String × JValue))
    (warm : List (String × String)) (f k : String) (v : JValue)
    (h : contribKey ws warm f = some (k, v)) :
    (k = f ∧ dictGet ws f = some v) ∨
    (k = f ++ "_summary" ∧ dictGet ws f = none ∧
      ∃ su, dictGet warm f = some su ∧ v = JValue.str su) := by
  unfold contribKey at h
  cases h1 : dictGet ws f with
  | some w =>
    rw [h1] at h
    simp only [Option.some.injEq, Prod.mk.injEq] at h
    exact Or.inl ⟨h.1.symm, by rw [h.2]⟩
  | none =>
    rw [h1] at h
    cases h2 : dictGet warm f with
    | some su =>
      rw [h2] at h
      simp only [Option.some.injEq, Prod.mk.injEq] at h
      exact Or.inr ⟨h.1.symm, rfl, su, rfl, h.2.symm⟩
    | none => rw [h2] at h; cases h

/-- A key of the slice output comes from the accumulator or from some
requested field's contribution. -/
theorem slice_loop_contains (ws : List (String × JValue))
    (warm : List (String × String)) :
    ∀ (fields : List String) (acc : List (String × JValue)) (k : String),
      dictContains (sliceWorkspaceLoop ws warm fields acc) k = true →
      dictContains acc k = true ∨
        ∃ f ∈ fields, ∃ v, contribKey ws warm f = some (k, v) := by
  intro fields
  induction fields with
  | nil => intro acc k h; exact Or.inl h
  | cons f rest ih =>
    intro acc k h
    rw [slice_loop_step] at h
    cases hc : contribKey ws warm f with
    | none =>
      rw [hc] at h
      rcases ih acc k h with h' | ⟨g, hg, w, hw⟩
      · exact Or.inl h'
      · exact Or.inr ⟨g, List.mem_cons_of_mem f hg, w, hw⟩
    | some kv =>
      rw [hc] at h
      rcases ih (dictSet acc kv.1 kv.2) k h with h' | ⟨g, hg, w, hw⟩
      · unfold dictContains at h'
        rw [dictGet_dictSet] at h'
        by_cases hk : kv.1 = k
        · exact Or.inr ⟨f, List.mem_cons_self f rest, kv.2, by
            rw [hc, ← hk]⟩
        · rw [if_neg hk] at h'
          exact Or.inl h'
      · exact Or.inr ⟨g, List.mem_cons_of_mem f hg, w, hw⟩

/-- Requested fields that contribute nothing to a key leave that key's
lookup unchanged. -/
theorem slice_loop_no_contrib (ws : List (String × JValue))
    (warm : List (String × String)) :
    ∀ (fields : List String) (acc : List (String × JValue)) (k : String),
      (∀ f ∈ fields, ∀ v, contribKey ws warm f ≠ some (k, v)) →
      dictGet (sliceWorkspaceLoop ws warm fields acc) k = dictGet acc k := by
  intro fields
  induction fields with
  | nil => intro acc k _; rfl
  | cons f rest ih =>
    intro acc k hno
    rw [slice_loop_step]
    cases hc : contribKey ws warm f with
    | none => exact ih acc k (fun g hg => hno g (List.mem_cons_of_mem f hg))
    | some kv =>
      have hne : kv.1 ≠ k := by
        intro hk
        exact hno f (List.mem_cons_self f rest) kv.2
          (by rw [hc, ← hk])
      rw [ih (dictSet acc kv.1 kv.2) k
        (fun g hg => hno g (List.mem_cons_of_mem f hg))]
      rw [dictGet_dictSet, if_neg hne]

/-- If some requested field contributes `(k, v)` and every contribution
to `k` carries the value `v`, the slice maps `k` to `v`. -/
theorem slice_loop_get_contrib (ws : List (String × JValue))
    (warm : List (String × String)) :
    ∀ (fields : List String) (acc : List (String × JValue)) (k : String)
      (v : JValue),
      (∃ f ∈ fields, contribKey ws warm f = some (k, v)) →
      (∀ g ∈ fields, ∀ w, contribKey ws warm g = some (k, w) → w = v) →
      dictGet (sliceWorkspaceLoop ws warm fields acc) k = some v := by
  intro fields
  induction fields with
  | nil =>
    intro acc k v hex _
    obtain ⟨f, hf, _⟩ := hex
    cases hf
  | cons f rest ih =>
    intro acc k v hex huniq
    rw [slice_loop_step]
    by_cases hrest : ∃ g ∈ rest, ∃ w, contribKey ws warm g = some (k, w)
    · obtain ⟨g, hg, w, hw⟩ := hrest
      have hwv : w = v := huniq g (List.mem_cons_of_mem f hg) w hw
      subst hwv
      exact ih _ k w ⟨g, hg, hw⟩
        (fun g' hg' w' hw' =>
          huniq g' (List.mem_cons_of_mem f hg') w' hw')
    · push_neg at hrest
      have hnon : ∀ g ∈ rest, ∀ w, contribKey ws warm g ≠ some (k, w) :=
        fun g hg w hw => hrest g hg w hw
      obtain ⟨f0, hf0, hcf0⟩ := hex
      rcases List.mem_cons.mp hf0 with rfl | hf0r
      · rw [slice_loop_no_contrib ws warm rest _ k hnon, hcf0]
        exact dictGet_dictSet_self acc k v
      · exact absurd hcf0 (hnon f0 hf0r v)

theorem strAppend_cancel (f g s : String) (h : f ++ s = g ++ s) :
    f = g := by
  obtain ⟨fd⟩ := f
  obtain ⟨gd⟩ := g
  obtain ⟨sd⟩ := s
  have hd : fd ++ sd = gd ++ sd := congrArg String.data h
  have : fd = gd := by
    have hlen : fd.length = gd.length := by
      have := congrArg List.length hd
      simpa using this
    exact (List.append_inj_left hd hlen)
  rw [this]

/-- C6 (counterexample to "a requested field present in workspace is
included under its own name with its live value"): requesting both a
workspace field literally named `a_summary` and a warm-only field `a`
makes the later summary write overwrite the live value. -/
theorem C6_slice_counterexample :
    dictGet sampleBoard6.workspace "a_summary" =
      some (JValue.str "live") ∧
    dictGet (slice_context sampleBoard6 ["a_summary", "a"] false
        false).workspace "a_summary" = some (JValue.str "S") ∧
    JValue.str "S" ≠ JValue.str "live" := by
  refine ⟨rfl, rfl, ?_⟩
  intro h
  injection h with h2
  exact absurd h2 (by decide)

/-- C6 (amended): in the workspace section of a context slice, every
key corresponds to an explicitly requested field (either the field's
own name or the field suffixed `_summary`); and provided no requested
field's name equals another requested warm-only field's name suffixed
`_summary`, a requested field present in the workspace appears under
its own name with its live value, a requested field present only in
warm memory appears under `<field>_summary` with the warm summary, and
a requested field present in neither contributes no entry (and raises
no error). -/
theorem C6_slice_context_amended (s : BlackboardState)
    (fields : List String) (incH incC : Bool)
    (hcoll : ∀ g ∈ fields, dictGet s.workspace g = none →
      ∀ su, dictGet s.memory.warm g = some su →
      ∀ f ∈ fields, f ≠ g ++ "_summary") :
    (∀ k, dictContains (slice_context s fields incH incC).workspace k =
        true →
      k ∈ fields ∨ ∃ f ∈ fields, k = f ++ "_summary") ∧
    (∀ f ∈ fields, ∀ v, dictGet s.workspace f = some v →
      dictGet (slice_context s fields incH incC).workspace f = some v) ∧
    (∀ f ∈ fields, ∀ su, dictGet s.workspace f = none →
      dictGet s.memory.warm f = some su →
      dictGet (slice_context s fields incH incC).workspace
        (f ++ "_summary") = some (JValue.str su)) ∧
    (∀ f ∈ fields, dictGet s.workspace f = none →
      dictGet s.memory.warm f = none →
      dictGet (slice_context s fields incH incC).workspace f = none) := by
  refine ⟨?_, ?_, ?_, ?_⟩
  · intro k hk
    have h := slice_loop_contains s.workspace s.memory.warm fields [] k hk
    rcases h with h | ⟨f, hf, v, hv⟩
    · cases h
    · rcases contribKey_cases _ _ _ _ _ hv with ⟨rfl, _⟩ | ⟨rfl, _, _⟩
      · exact Or.inl hf
      · exact Or.inr ⟨f, hf, rfl⟩
  · intro f hf v hv
    show dictGet (sliceWorkspaceLoop s.workspace s.memory.warm fields [])
      f = some v
    apply slice_loop_get_contrib s.workspace s.memory.warm fields [] f v
    · exact ⟨f, hf, by unfold contribKey; rw [hv]⟩
    · intro g hg w hw
      rcases contribKey_cases _ _ _ _ _ hw with ⟨hk, hws⟩ |
        ⟨hk, hwsn, su, hsu, rfl⟩
      · subst hk
        rw [hv] at hws
        cases hws
        rfl
      · exact absurd hk (hcoll g hg hwsn su hsu f hf)
  · intro f hf su hwsn hsu
    show dictGet (sliceWorkspaceLoop s.workspace s.memory.warm fields [])
      (f ++ "_summary") = some (JValue.str su)
    apply slice_loop_get_contrib s.workspace s.memory.warm fields []
      (f ++ "_summary") (JValue.str su)
    · exact ⟨f, hf, by unfold contribKey; rw [hwsn, hsu]⟩
    · intro g hg w hw
      rcases contribKey_cases _ _ _ _ _ hw with ⟨hk, hws⟩ |
        ⟨hk, hwsn2, su2, hsu2, rfl⟩
      · exact absurd hk.symm (hcoll f hf hwsn su hsu g hg)
      · have hfg : g = f := strAppend_cancel g f "_summary" hk.symm
        subst hfg
        rw [hsu] at hsu2
        cases hsu2
        rfl
  · intro f hf hwsn hwn
    show dictGet (sliceWorkspaceLoop s.workspace s.memory.warm fields [])
      f = none
    rw [slice_loop_no_contrib s.workspace s.memory.warm fields [] f ?_]
    · rfl
    · intro g hg w hw
      rcases contribKey_cases _ _ _ _ _ hw with ⟨hk, hws⟩ |
        ⟨hk, hwsn2, su2, hsu2, _⟩
      · subst hk
        rw [hwsn] at hws
        cases hws
      · exact absurd hk (hcoll g hg hwsn2 su2 hsu2 f hf)

/-- Concrete instance of `C6_slice_context_amended`: requesting a live
field, a warm-only field, and a missing field. -/
theorem C6_slice_context_amended_witness :
    (∀ k, dictContains (slice_context sampleBoard6w
        ["code", "old", "missing"] false false).workspace k = true →
      k ∈ ["code", "old", "missing"] ∨
        ∃ f ∈ ["code", "old", "missing"], k = f ++ "_summary") ∧
    (∀ f ∈ ["code", "old", "missing"], ∀ v,
      dictGet sampleBoard6w.workspace f = some v →
      dictGet (slice_context sampleBoard6w ["code", "old", "missing"]
        false false).workspace f = some v) ∧
    (∀ f ∈ ["code", "old", "missing"], ∀ su,
      dictGet sampleBoard6w.workspace f = none →
      dictGet sampleBoard6w.memory.warm f = some su →
      dictGet (slice_context sampleBoard6w ["code", "old", "missing"]
        false false).workspace (f ++ "_summary") =
        some (JValue.str su)) ∧
    (∀ f ∈ ["code", "old", "missing"],
      dictGet sampleBoard6w.workspace f = none →
      dictGet sampleBoard6w.memory.warm f = none →
      dictGet (slice_context sampleBoard6w ["code", "old", "missing"]
        false false).workspace f = none) :=
  C6_slice_context_amended sampleBoard6w ["code", "old", "missing"]
    false false (by
      intro g hg h1 su h2 f hf
      rcases List.mem_cons.mp hg with rfl | hg2
      · exact Option.noConfusion h1
      rcases List.mem_cons.mp hg2 with rfl | hg3
      · rcases List.mem_cons.mp hf with rfl | hf2
        · decide
        rcases List.mem_cons.mp hf2 with rfl | hf3
        · decide
        rcases List.mem_cons.mp hf3 with rfl | hf4
        · decide
        · cases hf4
      rcases List.mem_cons.mp hg3 with rfl | hg4
      · exact Option.noConfusion h2
      · cases hg4)

/-- C4 (counterexample to the claim's iff reading): a cycle genuinely
approved on its first iteration of a 3-iteration cap is approved before
reaching max_iterations, yet the conductor classifies it as
`approved_first_try`, not `approved_after_revision`. -/
theorem C4_classification_counterexample :
    (invokeAgent sampleReg4 sampleDecision4 sampleBoard4 4).2 =
      some ("approved_first_try", 1) ∧
    (1 : Nat) < 3 ∧
    "approved_first_try" ≠ "approved_after_revision" :=
  ⟨rfl, by decide, by decide⟩

/-- C4 (amended): the outcome classification is the if/elif/else chain
of `_invoke_agent` — `approved_first_try` iff exactly one iteration,
`approved_after_revision` iff more than one iteration and strictly
below `max_iterations`, `force_approved` iff more than one iteration
and `max_iterations` reached (which includes a genuine approval on the
final allowed iteration); whenever the conductor reports a consensus
outcome it has observed an APPROVED cycle, reported that cycle's
classification, and cleared the active consensus (consensus becomes
null). -/
theorem C4_consensus_outcome_amended :
    (∀ it maxIter : Nat,
      (classifyOutcome it maxIter = "approved_first_try" ↔ it = 1) ∧
      (classifyOutcome it maxIter = "approved_after_revision" ↔
        (it ≠ 1 ∧ it < maxIter)) ∧
      (classifyOutcome it maxIter = "force_approved" ↔
        (it ≠ 1 ∧ ¬ it < maxIter))) ∧
    (∀ (s3 : BlackboardState) (now : Nat) (c : ConsensusState),
      s3.consensus = some c → c.status = ConsensusStatus.approved →
      consensusCheck s3 now =
        (clear_consensus s3 now,
         some (classifyOutcome c.current_iteration c.max_iterations,
               c.current_iteration)) ∧
      (clear_consensus s3 now).consensus = none) := by
  have d12 : ("approved_first_try" : String) ≠ "approved_after_revision" :=
    by decide
  have d13 : ("approved_first_try" : String) ≠ "force_approved" := by decide
  have d23 : ("approved_after_revision" : String) ≠ "force_approved" :=
    by decide
  constructor
  · intro it maxIter
    by_cases h1 : it = 1 <;> by_cases h2 : it < maxIter <;>
      simp [classifyOutcome, h1, h2, d12, d13, d23, d12.symm, d13.symm,
        d23.symm]
  · intro s3 now c hc hst
    constructor
    · unfold consensusCheck
      rw [hc]
      simp [hst]
    · rfl

/-- Concrete instance of `C4_consensus_outcome_amended` on a cycle
approved at iteration 1 of 3. -/
theorem C4_consensus_outcome_amended_witness :
    (consensusCheck sampleBoard4b 4 =
      (clear_consensus sampleBoard4b 4,
       some (classifyOutcome 1 3, 1)) ∧
     (clear_consensus sampleBoard4b 4).consensus = none) ∧
    (classifyOutcome 1 3 = "approved_first_try" ↔ (1 : Nat) = 1) :=
  ⟨C4_consensus_outcome_amended.2 sampleBoard4b 4
     ⟨"code", ConsensusStatus.approved,
      [⟨"critic", ConsensusStatus.approved, "ok", 3⟩], 3, 1⟩
     rfl rfl,
   (C4_consensus_outcome_amended.1 1 3).1⟩

/-- A forced `_act` step has set the status to COMPLETED. -/
theorem condAct_forced_terminal (reg : Registry) (d : ConductorDecision)
    (t : ConductorTrack) (s : BlackboardState) (now : Nat)
    (h : (condAct reg d t s now).forced = true) :
    (condAct reg d t s now).state.global_status = GlobalStatus.COMPLETED := by
  simp only [condAct] at h ⊢
  by_cases hcond : d.action = CAction.invoke_agent ∧
      agentNameTruthy d.agent_name = true
  · rw [if_pos hcond] at h ⊢
    by_cases hrep :
        (if d.agent_name = t.last_agent then t.repeat_count + 1 else 1) ≥ 3
    · rw [if_pos hrep]
      rfl
    · rw [if_neg hrep] at h
      rcases hp : invokeAgent reg d s now with ⟨s', ev⟩
      rw [hp] at h
      cases h
  · rw [if_neg hcond] at h
    cases hact : d.action with
    | invoke_agent =>
      rw [hact] at h
      rcases hp : invokeAgent reg d s now with ⟨s', ev⟩
      rw [hp] at h
      cases h
    | update_status =>
      rw [hact] at h
      cases hup : d.status_update with
      | some st => rw [hup] at h; cases h
      | none => rw [hup] at h; cases h
    | complete => rw [hact] at h; cases h
    | fail => rw [hact] at h; cases h
    | other str => rw [hact] at h; cases h

/-- As long as no step produces a terminal status, the loop consumes
its entire fuel, the state stays non-terminal, and no override step is
recorded. -/
theorem runLoop_nonterminal (reg : Registry)
    (decide : Nat → BlackboardState → ConductorDecision)
    (clock : Nat → Nat)
    (H1 : ∀ n t s, s.global_status.isTerminal = false →
      ((condAct reg (decide n s) t s (clock n)).state).global_status.isTerminal
        = false) :
    ∀ (fuel n : Nat) (t : ConductorTrack) (s : BlackboardState)
      (acc : List Nat), s.global_status.isTerminal = false →
      (runLoop reg decide clock fuel n t s acc).stepCount = n + fuel ∧
      ((runLoop reg decide clock fuel n t s
        acc).state).global_status.isTerminal = false ∧
      (runLoop reg decide clock fuel n t s acc).forcedSteps = acc := by
  intro fuel
  induction fuel with
  | zero => intro n t s acc h; exact ⟨rfl, h, rfl⟩
  | succ f ih =>
    intro n t s acc h
    unfold runLoop
    rw [if_neg (by rw [h]; exact Bool.false_ne_true)]
    have hnext := H1 (n + 1) t s h
    have hforced : (condAct reg (decide (n + 1) s) t s
        (clock (n + 1))).forced = false := by
      cases hf : (condAct reg (decide (n + 1) s) t s
          (clock (n + 1))).forced
      · rfl
      · have := condAct_forced_terminal reg (decide (n + 1) s) t s
          (clock (n + 1)) hf
        rw [this] at hnext
        cases hnext
    obtain ⟨h1, h2, h3⟩ := ih (n + 1) _ _
      (acc ++ if (condAct reg (decide (n + 1) s) t s
        (clock (n + 1))).forced = true then [n + 1] else []) hnext
    refine ⟨by rw [h1]; omega, h2, ?_⟩
    rw [h3, hforced]
    simp

/-- C3: with `max_steps = K ≥ 1` and a decision function none of whose
actions ever produces a terminal status (in particular the loop
override never fires), `run()` performs exactly `K` sense-think-act
iterations, then forces FAILED with the fixed reason
"Max conductor steps exceeded" and returns FAILED. -/
theorem C3_max_steps_failure (reg : Registry)
    (decide : Nat → BlackboardState → ConductorDecision)
    (clock : Nat → Nat) (K : Nat) (hK : 1 ≤ K) (s₀ : BlackboardState)
    (h₀ : s₀.global_status.isTerminal = false)
    (H1 : ∀ n t s, s.global_status.isTerminal = false →
      ((condAct reg (decide n s) t s (clock n)).state).global_status.isTerminal
        = false) :
    (conductorRun reg decide clock K s₀).finalStatus =
      GlobalStatus.FAILED ∧
    (conductorRun reg decide clock K s₀).stepCount = K ∧
    (conductorRun reg decide clock K s₀).state.global_status =
      GlobalStatus.FAILED ∧
    ∃ fromSt,
      ((conductorRun reg decide clock K s₀).state.status_history).getLast? =
        some { from_status := fromSt, to_status := "FAILED",
               reason := "Max conductor steps exceeded",
               timestamp := clock (K + 1) } := by
  obtain ⟨h1, h2, h3⟩ :=
    runLoop_nonterminal reg decide clock H1 K 0 {} s₀ [] h₀
  unfold conductorRun
  rw [if_pos ⟨by omega, by rw [h2]; exact Bool.false_ne_true⟩]
  refine ⟨rfl, by simpa using h1, rfl, ?_⟩
  refine ⟨(runLoop reg decide clock K 0 {} s₀
    []).state.global_status.value, ?_⟩
  show ((runLoop reg decide clock K 0 {} s₀ []).state.status_history ++
    [_]).getLast? = _
  rw [List.getLast?_concat, h1]
  simp [GlobalStatus.value]

/-- Concrete instance of `C3_max_steps_failure`: an unknown-action
decision function against an empty registry, `K = 2`. -/
theorem C3_max_steps_failure_witness :
    (conductorRun (fun _ => none)
      (fun _ _ => { action := CAction.other "noop" })
      (fun n => n) 2 (initBoard "t3r" "o" [] 0)).finalStatus =
      GlobalStatus.FAILED ∧
    (conductorRun (fun _ => none)
      (fun _ _ => { action := CAction.other "noop" })
      (fun n => n) 2 (initBoard "t3r" "o" [] 0)).stepCount = 2 ∧
    (conductorRun (fun _ => none)
      (fun _ _ => { action := CAction.other "noop" })
      (fun n => n) 2 (initBoard "t3r" "o" [] 0)).state.global_status =
      GlobalStatus.FAILED ∧
    ∃ fromSt,
      ((conductorRun (fun _ => none)
        (fun _ _ => { action := CAction.other "noop" })
        (fun n => n) 2 (initBoard "t3r" "o" []
          0)).state.status_history).getLast? =
        some { from_status := fromSt, to_status := "FAILED",
               reason := "Max conductor steps exceeded",
               timestamp := 3 } :=
  C3_max_steps_failure (fun _ => none)
    (fun _ _ => { action := CAction.other "noop" })
    (fun n => n) 2 (by decide) (initBoard "t3r" "o" [] 0) rfl
    (fun _ _ _ h => h)


-- ---------------------------------------------------------------------
-- C2: the consecutive-repeat override of `Conductor._act`.
-- ---------------------------------------------------------------------

/-- `set_status` leaves the invocation log untouched. -/
theorem countInv_set_status (s : BlackboardState) (st : GlobalStatus)
    (r : String) (now : Nat) (x : String) :
    countInvocations x (set_status s st r now) = countInvocations x s := rfl

/-- `clear_consensus` leaves the invocation log untouched. -/
theorem countInv_clear_consensus (s : BlackboardState) (now : Nat)
    (x : String) :
    countInvocations x (clear_consensus s now) = countInvocations x s := rfl

/-- `log_invocation_start` does not change the global status. -/
theorem gs_log_start (s : BlackboardState) (an : String) (now : Nat) :
    (log_invocation_start s an now).global_status = s.global_status := rfl

/-- `log_invocation_end` does not change the global status. -/
theorem gs_log_end (s : BlackboardState) (idx : Nat) (st : String)
    (it ot : Nat) (e : Option String) (now : Nat) :
    (log_invocation_end s idx st it ot e now).global_status =
      s.global_status := rfl

/-- Appending one element grows a filtered length by at most one. -/
theorem filter_append_one {α : Type} (p : α → Bool) (l : List α) (r : α) :
    ((l ++ [r]).filter p).length ≤ (l.filter p).length + 1 := by
  rw [List.filter_append, List.length_append]
  have h : (List.filter p [r]).length ≤ 1 := by
    cases hp : p r <;> simp [List.filter_cons, hp]
  omega

/-- `log_invocation_start` adds at most one record for any agent. -/
theorem countInv_log_start (s : BlackboardState) (an : String) (now : Nat)
    (x : String) :
    countInvocations x (log_invocation_start s an now) ≤
      countInvocations x s + 1 := by
  exact filter_append_one _ s.invocation_log
    { agent_name := an, started_at := now }

/-- `listModify` with an `agent_name`-preserving update preserves every
filtered length over the predicate. -/
theorem filter_length_listModify {α : Type} (p : α → Bool) (f : α → α)
    (hf : ∀ r, p (f r) = p r) :
    ∀ (l : List α) (i : Nat),
      ((listModify l i f).filter p).length = (l.filter p).length := by
  intro l
  induction l with
  | nil => intro i; rfl
  | cons hd tl ih =>
    intro i
    cases i with
    | zero =>
      show ((f hd :: tl).filter p).length = ((hd :: tl).filter p).length
      rw [List.filter_cons, List.filter_cons, hf]
      cases hp : p hd <;> simp [hp]
    | succ j =>
      show ((hd :: listModify tl j f).filter p).length =
        ((hd :: tl).filter p).length
      rw [List.filter_cons, List.filter_cons]
      cases hp : p hd <;> simp [hp, ih j]

/-- `log_invocation_end` closes a record in place: invocation counts are
unchanged. -/
theorem countInv_log_end (s : BlackboardState) (idx : Nat) (st : String)
    (it ot : Nat) (e : Option String) (now : Nat) (x : String) :
    countInvocations x (log_invocation_end s idx st it ot e now) =
      countInvocations x s := by
  show (List.filter (fun r => decide (r.agent_name = x))
      (listModify s.invocation_log idx fun r =>
        { agent_name := r.agent_name
          started_at := r.started_at
          finished_at := some now
          input_tokens := it
          output_tokens := ot
          status := st
          error := e })).length =
    (List.filter (fun r => decide (r.agent_name = x)) s.invocation_log).length
  exact filter_length_listModify
    (fun r : AgentInvocationRecord => r.agent_name = x)
    (fun r =>
      { agent_name := r.agent_name
        started_at := r.started_at
        finished_at := some now
        input_tokens := it
        output_tokens := ot
        status := st
        error := e })
    (fun _ => rfl) s.invocation_log idx

/-- The consensus-completion check does not change the global status. -/
theorem consensusCheck_gs (s3 : BlackboardState) (now : Nat) :
    ((consensusCheck s3 now).1).global_status = s3.global_status := by
  unfold consensusCheck
  split
  · split <;> rfl
  · rfl

/-- The consensus-completion check does not change invocation counts. -/
theorem consensusCheck_count (s3 : BlackboardState) (now : Nat)
    (x : String) :
    countInvocations x (consensusCheck s3 now).1 = countInvocations x s3 := by
  unfold consensusCheck
  split
  · split <;> rfl
  · rfl

/-- `_invoke_agent` against a registry whose agents neither reach a
terminal status nor write invocation records themselves: the resulting
state is still non-terminal and at most one invocation record (for any
agent name) is added. -/
theorem invokeAgent_spec (reg : Registry) (d : ConductorDecision)
    (s : BlackboardState) (now : Nat) (x : String)
    (HregNT : ∀ cap, reg (d.agent_name.getD "") = some cap →
      ∀ ctx st, st.global_status.isTerminal = false →
        ((cap ctx st).state).global_status.isTerminal = false)
    (Hlog : ∀ cap, reg (d.agent_name.getD "") = some cap →
      ∀ ctx st, ((cap ctx st).state).invocation_log = st.invocation_log)
    (h : s.global_status.isTerminal = false) :
    ((invokeAgent reg d s now).1).global_status.isTerminal = false ∧
    countInvocations x (invokeAgent reg d s now).1 ≤
      countInvocations x s + 1 := by
  unfold invokeAgent
  by_cases ht : agentNameTruthy d.agent_name = true
  · rw [if_pos ht]
    dsimp only
    cases hreg : reg (d.agent_name.getD "") with
    | none => exact ⟨h, Nat.le_add_right _ 1⟩
    | some cap =>
      dsimp only
      by_cases hplan : (log_invocation_start s (d.agent_name.getD "")
          now).global_status = GlobalStatus.PLANNING
      · rw [if_pos hplan]
        have hS2nt : (set_status (log_invocation_start s
            (d.agent_name.getD "") now) GlobalStatus.EXECUTING
            ("First agent invoked: " ++ d.agent_name.getD "")
            now).global_status.isTerminal = false := rfl
        have hS2cnt : countInvocations x (set_status (log_invocation_start s
            (d.agent_name.getD "") now) GlobalStatus.EXECUTING
            ("First agent invoked: " ++ d.agent_name.getD "") now) ≤
            countInvocations x s + 1 := by
          rw [countInv_set_status]
          exact countInv_log_start s _ now x
        by_cases hok : (cap (slice_context s d.relevant_fields true
            d.include_consensus) (set_status (log_invocation_start s
            (d.agent_name.getD "") now) GlobalStatus.EXECUTING
            ("First agent invoked: " ++ d.agent_name.getD "") now)).ok = true
        · rw [if_pos hok]
          refine ⟨?_, ?_⟩
          · rw [consensusCheck_gs, gs_log_end]
            exact HregNT cap hreg _ _ hS2nt
          · rw [consensusCheck_count, countInv_log_end]
            have hc : countInvocations x (cap (slice_context s
                d.relevant_fields true d.include_consensus)
                (set_status (log_invocation_start s (d.agent_name.getD "")
                now) GlobalStatus.EXECUTING
                ("First agent invoked: " ++ d.agent_name.getD "")
                now)).state = countInvocations x (set_status
                (log_invocation_start s (d.agent_name.getD "") now)
                GlobalStatus.EXECUTING
                ("First agent invoked: " ++ d.agent_name.getD "") now) := by
              unfold countInvocations
              rw [Hlog cap hreg _ _]
            rw [hc]
            exact hS2cnt
        · rw [if_neg hok]
          dsimp only
          refine ⟨?_, ?_⟩
          · rw [gs_log_end]
            exact HregNT cap hreg _ _ hS2nt
          · rw [countInv_log_end]
            have hc : countInvocations x (cap (slice_context s
                d.relevant_fields true d.include_consensus)
                (set_status (log_invocation_start s (d.agent_name.getD "")
                now) GlobalStatus.EXECUTING
                ("First agent invoked: " ++ d.agent_name.getD "")
                now)).state = countInvocations x (set_status
                (log_invocation_start s (d.agent_name.getD "") now)
                GlobalStatus.EXECUTING
                ("First agent invoked: " ++ d.agent_name.getD "") now) := by
              unfold countInvocations
              rw [Hlog cap hreg _ _]
            rw [hc]
            exact hS2cnt
      · rw [if_neg hplan]
        have hS2nt : (log_invocation_start s (d.agent_name.getD "")
            now).global_status.isTerminal = false := h
        have hS2cnt : countInvocations x (log_invocation_start s
            (d.agent_name.getD "") now) ≤ countInvocations x s + 1 :=
          countInv_log_start s _ now x
        by_cases hok : (cap (slice_context s d.relevant_fields true
            d.include_consensus) (log_invocation_start s
            (d.agent_name.getD "") now)).ok = true
        · rw [if_pos hok]
          refine ⟨?_, ?_⟩
          · rw [consensusCheck_gs, gs_log_end]
            exact HregNT cap hreg _ _ hS2nt
          · rw [consensusCheck_count, countInv_log_end]
            have hc : countInvocations x (cap (slice_context s
                d.relevant_fields true d.include_consensus)
                (log_invocation_start s (d.agent_name.getD "")
                now)).state = countInvocations x (log_invocation_start s
                (d.agent_name.getD "") now) := by
              unfold countInvocations
              rw [Hlog cap hreg _ _]
            rw [hc]
            exact hS2cnt
        · rw [if_neg hok]
          dsimp only
          refine ⟨?_, ?_⟩
          · rw [gs_log_end]
            exact HregNT cap hreg _ _ hS2nt
          · rw [countInv_log_end]
            have hc : countInvocations x (cap (slice_context s
                d.relevant_fields true d.include_consensus)
                (log_invocation_start s (d.agent_name.getD "")
                now)).state = countInvocations x (log_invocation_start s
                (d.agent_name.getD "") now) := by
              unfold countInvocations
              rw [Hlog cap hreg _ _]
            rw [hc]
            exact hS2cnt
  · rw [if_neg ht]
    exact ⟨h, Nat.le_add_right _ 1⟩

/-- One non-terminal iteration of the conductor loop, in closed form. -/
theorem runLoop_step (reg : Registry)
    (decide : Nat → BlackboardState → ConductorDecision)
    (clock : Nat → Nat) (fuel n : Nat) (t : ConductorTrack)
    (s : BlackboardState) (acc : List Nat)
    (h : s.global_status.isTerminal = false) :
    runLoop reg decide clock (Nat.succ fuel) n t s acc =
      runLoop reg decide clock fuel (n + 1)
        (condAct reg (decide (n + 1) s) t s (clock (n + 1))).track
        (condAct reg (decide (n + 1) s) t s (clock (n + 1))).state
        (acc ++ if (condAct reg (decide (n + 1) s) t s
          (clock (n + 1))).forced = true then [n + 1] else []) := by
  conv_lhs => unfold runLoop
  rw [if_neg (by rw [h]; exact Bool.false_ne_true)]

/-- On a terminal state the loop stops at once: the state and the
forced-step trace come out unchanged. -/
theorem runLoop_terminal (reg : Registry)
    (decide : Nat → BlackboardState → ConductorDecision)
    (clock : Nat → Nat) (fuel n : Nat) (t : ConductorTrack)
    (s : BlackboardState) (acc : List Nat)
    (h : s.global_status.isTerminal = true) :
    (runLoop reg decide clock fuel n t s acc).state = s ∧
    (runLoop reg decide clock fuel n t s acc).forcedSteps = acc := by
  cases fuel with
  | zero => exact ⟨rfl, rfl⟩
  | succ f =>
    unfold runLoop
    rw [if_pos h]
    exact ⟨rfl, rfl⟩

/-- C2: when the decision function asks to invoke the same (truthy)
agent on every step and the registered agents neither reach a terminal
status nor write invocation records themselves, a run with
`max_steps ≥ 3` fires the repetition override exactly at step 3: the
status is forced to COMPLETED with the loop-detected reason, step 3
bypasses the agent (the forced-step trace is exactly `[3]`), and at
most two invocations of that agent are ever logged — a third (let alone
a fourth) invocation never occurs. -/
theorem C2_loop_override (reg : Registry)
    (decide : Nat → BlackboardState → ConductorDecision)
    (clock : Nat → Nat) (maxSteps : Nat) (hms : 3 ≤ maxSteps)
    (s₀ : BlackboardState) (a : String) (ha : a ≠ "")
    (h₀ : s₀.global_status.isTerminal = false)
    (Hd : ∀ n s, (decide n s).action = CAction.invoke_agent ∧
      (decide n s).agent_name = some a)
    (HregNT : ∀ cap, reg a = some cap → ∀ ctx st,
      st.global_status.isTerminal = false →
      ((cap ctx st).state).global_status.isTerminal = false)
    (Hlog : ∀ cap, reg a = some cap → ∀ ctx st,
      ((cap ctx st).state).invocation_log = st.invocation_log) :
    (conductorRun reg decide clock maxSteps s₀).finalStatus =
      GlobalStatus.COMPLETED ∧
    (conductorRun reg decide clock maxSteps s₀).forcedSteps = [3] ∧
    countInvocations a (conductorRun reg decide clock maxSteps s₀).state ≤
      countInvocations a s₀ + 2 ∧
    ∃ fromSt,
      ((conductorRun reg decide clock maxSteps
          s₀).state.status_history).getLast? =
        some { from_status := fromSt
               to_status := "COMPLETED"
               reason := "Auto-completed: agent \x27" ++ a ++
                 "\x27 loop detected"
               timestamp := clock 3 } := by
  have hgetD : ∀ n s, ((decide n s).agent_name).getD "" = a := by
    intro n s
    rw [(Hd n s).2]
    rfl
  have htruthy : ∀ n s, agentNameTruthy (decide n s).agent_name = true := by
    intro n s
    rw [(Hd n s).2]
    simp [agentNameTruthy, ha]
  have HregNT2 : ∀ n s, ∀ cap,
      reg (((decide n s).agent_name).getD "") = some cap →
      ∀ ctx st, st.global_status.isTerminal = false →
        ((cap ctx st).state).global_status.isTerminal = false := by
    intro n s
    rw [hgetD n s]
    exact HregNT
  have Hlog2 : ∀ n s, ∀ cap,
      reg (((decide n s).agent_name).getD "") = some cap →
      ∀ ctx st, ((cap ctx st).state).invocation_log = st.invocation_log := by
    intro n s
    rw [hgetD n s]
    exact Hlog
  have hactFirst : ∀ (n : Nat) (s : BlackboardState),
      condAct reg (decide n s) {} s (clock n) =
      { track := { last_agent := some a, repeat_count := 1 }
        state := (invokeAgent reg (decide n s) s (clock n)).1
        consensusEvent := (invokeAgent reg (decide n s) s (clock n)).2
        forced := false } := by
    intro n s
    unfold condAct
    have hcond : (decide n s).action = CAction.invoke_agent ∧
        agentNameTruthy (decide n s).agent_name = true :=
      ⟨(Hd n s).1, htruthy n s⟩
    rw [if_pos hcond, (Hd n s).2]
    dsimp only
    rw [if_neg (show ¬ ((some a : Option String) = none) by simp)]
    rw [if_neg (show ¬ ((1 : Nat) ≥ 3) by omega)]
  have hactStep : ∀ (n : Nat) (s : BlackboardState) (k : Nat), k + 1 < 3 →
      condAct reg (decide n s) { last_agent := some a, repeat_count := k }
        s (clock n) =
      { track := { last_agent := some a, repeat_count := k + 1 }
        state := (invokeAgent reg (decide n s) s (clock n)).1
        consensusEvent := (invokeAgent reg (decide n s) s (clock n)).2
        forced := false } := by
    intro n s k hk
    unfold condAct
    have hcond : (decide n s).action = CAction.invoke_agent ∧
        agentNameTruthy (decide n s).agent_name = true :=
      ⟨(Hd n s).1, htruthy n s⟩
    rw [if_pos hcond, (Hd n s).2]
    dsimp only
    rw [if_pos (rfl : (some a : Option String) = some a)]
    rw [if_neg (show ¬ (k + 1 ≥ 3) by omega)]
  have hactForce : ∀ (n : Nat) (s : BlackboardState) (k : Nat), k + 1 ≥ 3 →
      condAct reg (decide n s) { last_agent := some a, repeat_count := k }
        s (clock n) =
      { track := { last_agent := some a, repeat_count := k + 1 }
        state := set_status s GlobalStatus.COMPLETED
          ("Auto-completed: agent \x27" ++ a ++ "\x27 loop detected")
          (clock n)
        consensusEvent := none
        forced := true } := by
    intro n s k hk
    unfold condAct
    have hcond : (decide n s).action = CAction.invoke_agent ∧
        agentNameTruthy (decide n s).agent_name = true :=
      ⟨(Hd n s).1, htruthy n s⟩
    rw [if_pos hcond, (Hd n s).2]
    dsimp only
    rw [if_pos (rfl : (some a : Option String) = some a)]
    rw [if_pos hk]
    rfl
  obtain ⟨m, rfl⟩ : ∃ m, maxSteps = m + 3 := ⟨maxSteps - 3, by omega⟩
  obtain ⟨s₁, hs₁, hs₁nt, hs₁cnt⟩ :
      ∃ s₁, (invokeAgent reg (decide 1 s₀) s₀ (clock 1)).1 = s₁ ∧
        s₁.global_status.isTerminal = false ∧
        countInvocations a s₁ ≤ countInvocations a s₀ + 1 :=
    ⟨_, rfl,
      (invokeAgent_spec reg (decide 1 s₀) s₀ (clock 1) a
        (HregNT2 1 s₀) (Hlog2 1 s₀) h₀).1,
      (invokeAgent_spec reg (decide 1 s₀) s₀ (clock 1) a
        (HregNT2 1 s₀) (Hlog2 1 s₀) h₀).2⟩
  obtain ⟨s₂, hs₂, hs₂nt, hs₂cnt⟩ :
      ∃ s₂, (invokeAgent reg (decide 2 s₁) s₁ (clock 2)).1 = s₂ ∧
        s₂.global_status.isTerminal = false ∧
        countInvocations a s₂ ≤ countInvocations a s₁ + 1 :=
    ⟨_, rfl,
      (invokeAgent_spec reg (decide 2 s₁) s₁ (clock 2) a
        (HregNT2 2 s₁) (Hlog2 2 s₁) hs₁nt).1,
      (invokeAgent_spec reg (decide 2 s₁) s₁ (clock 2) a
        (HregNT2 2 s₁) (Hlog2 2 s₁) hs₁nt).2⟩
  have hrun : runLoop reg decide clock (m + 3) 0 {} s₀ [] =
      runLoop reg decide clock m 3
        { last_agent := some a, repeat_count := 3 }
        (set_status s₂ GlobalStatus.COMPLETED
          ("Auto-completed: agent \x27" ++ a ++ "\x27 loop detected")
          (clock 3)) [3] := by
    rw [show (m + 3 : Nat) = Nat.succ (m + 2) from rfl,
        runLoop_step reg decide clock (m + 2) 0 {} s₀ [] h₀,
        hactFirst (0 + 1) s₀]
    dsimp only
    norm_num
    rw [hs₁]
    rw [show (m + 2 : Nat) = Nat.succ (m + 1) from rfl,
        runLoop_step reg decide clock (m + 1) 1 _ s₁ [] hs₁nt,
        hactStep (1 + 1) s₁ 1 (by omega)]
    dsimp only
    norm_num
    rw [hs₂]
    rw [show (m + 1 : Nat) = Nat.succ m from rfl,
        runLoop_step reg decide clock m 2 _ s₂ [] hs₂nt,
        hactForce (2 + 1) s₂ 2 (by omega)]
    dsimp only
    norm_num
  have hterm : (set_status s₂ GlobalStatus.COMPLETED
      ("Auto-completed: agent \x27" ++ a ++ "\x27 loop detected")
      (clock 3)).global_status.isTerminal = true := rfl
  obtain ⟨hstate, hforced⟩ := runLoop_terminal reg decide clock m 3
    { last_agent := some a, repeat_count := 3 }
    (set_status s₂ GlobalStatus.COMPLETED
      ("Auto-completed: agent \x27" ++ a ++ "\x27 loop detected")
      (clock 3)) [3] hterm
  unfold conductorRun
  dsimp only
  rw [hrun, hstate, hforced]
  split
  · rename_i hcon
    exact absurd hterm hcon.2
  refine ⟨rfl, rfl, ?_, ?_⟩
  · show countInvocations a (set_status s₂ GlobalStatus.COMPLETED
      ("Auto-completed: agent \x27" ++ a ++ "\x27 loop detected")
      (clock 3)) ≤ countInvocations a s₀ + 2
    rw [countInv_set_status]
    omega
  · refine ⟨s₂.global_status.value, ?_⟩
    show (s₂.status_history ++ [_]).getLast? = _
    rw [List.getLast?_concat]
    simp [GlobalStatus.value]

/-- Concrete instance of `C2_loop_override`: a constant
invoke-"planner" decision function against an empty registry,
`max_steps = 5`. -/
theorem C2_loop_override_witness :
    (conductorRun (fun _ => none)
      (fun _ _ => { action := CAction.invoke_agent,
                    agent_name := some "planner" })
      (fun n => n) 5 (initBoard "t2" "o" [] 0)).finalStatus =
      GlobalStatus.COMPLETED ∧
    (conductorRun (fun _ => none)
      (fun _ _ => { action := CAction.invoke_agent,
                    agent_name := some "planner" })
      (fun n => n) 5 (initBoard "t2" "o" [] 0)).forcedSteps = [3] ∧
    countInvocations "planner" (conductorRun (fun _ => none)
      (fun _ _ => { action := CAction.invoke_agent,
                    agent_name := some "planner" })
      (fun n => n) 5 (initBoard "t2" "o" [] 0)).state ≤
      countInvocations "planner" (initBoard "t2" "o" [] 0) + 2 ∧
    ∃ fromSt,
      ((conductorRun (fun _ => none)
        (fun _ _ => { action := CAction.invoke_agent,
                      agent_name := some "planner" })
        (fun n => n) 5 (initBoard "t2" "o" []
          0)).state.status_history).getLast? =
        some { from_status := fromSt
               to_status := "COMPLETED"
               reason := "Auto-completed: agent \x27" ++ "planner" ++
                 "\x27 loop detected"
               timestamp := 3 } :=
  C2_loop_override (fun _ => none)
    (fun _ _ => { action := CAction.invoke_agent,
                  agent_name := some "planner" })
    (fun n => n) 5 (by decide) (initBoard "t2" "o" [] 0) "planner"
    (by decide) rfl (fun _ _ => ⟨rfl, rfl⟩)
    (fun _ h => nomatch h) (fun _ h => nomatch h)

end MALS
